import Mathlib

/-!
Verification of the zoneinfo line parser (`src/parse-zoneinfo/src/line.rs`).

Shallow embedding conventions:
* Rust `&str` values are modelled as `List Char`; Rust byte-index string
  slicing (`str::get`) is modelled byte-accurately via the UTF-8 width of
  each character (`utf8Len`, `byteTake`, `byteDrop`).
* Machine integers (`i8`, `u8`, `i64`) are modelled as `Int`/`Nat` with the
  range checks that Rust's `FromStr` implementations perform.  Rust's `/`
  and `%` on `i64` truncate towards zero, so they are modelled with
  `Int.tdiv` / `Int.tmod` where the sign of the operands matters.  `i64`
  additions and subtractions whose operands are not already bounded by the
  small `i8`-derived ranges are modelled as checked operations
  (`chkAdd` / `chkSub`), whose `none` is the arithmetic-overflow panic;
  the `i8` range computations `day + 8` and `day + 1` bounding the
  `to_concrete_day` scans are guarded the same way.
* Fallible operations return `PRes`, which distinguishes a reported error
  (`fail`, Rust `Err(...)`) from a panic (`crash`, Rust `panic!` /
  `unwrap()` on `None`/`Err` / `unreachable!()`).  Functions whose only
  failure mode is a panic return `Option` (`none` = panic).
-/

/-- The error type of the parser (`enum Error` in line.rs).  Payloads are the
offending text, as in the source. -/
inductive Error where
  | FailedYearParse : List Char → Error
  | FailedMonthParse : List Char → Error
  | FailedWeekdayParse : List Char → Error
  | InvalidLineType : List Char → Error
  | TypeColumnContainedNonHyphen : List Char → Error
  | CouldNotParseSaving : List Char → Error
  | InvalidDaySpec : List Char → Error
  | InvalidTimeSpecAndType : List Char → Error
  | NonWallClockInTimeSpec : List Char → Error
  | NotParsedAsRuleLine : Error
  | NotParsedAsZoneLine : Error
  | NotParsedAsLinkLine : Error
deriving DecidableEq

/-- Result of a Rust function that can return a value, return a reported
error, or panic.  `crash` marks a panic (`unwrap`, `panic!`, `unreachable!`);
it is never a reported error. -/
inductive PRes (α : Type) where
  | ok : α → PRes α
  | fail : Error → PRes α
  | crash : PRes α
deriving DecidableEq

/-- Functorial action on the `ok` value; `fail` and `crash` pass through
(Rust `?` / panic propagation around a final constructor application). -/
def PRes.map {α β : Type} (f : α → β) : PRes α → PRes β
  | .ok a => .ok (f a)
  | .fail e => .fail e
  | .crash => .crash

/-- Sequencing in the success case; `fail` and `crash` pass through.  This
is Rust's `?` operator together with panic propagation. -/
def PRes.then {α β : Type} : PRes α → (α → PRes β) → PRes β
  | .ok a, f => f a
  | .fail e, _ => .fail e
  | .crash, _ => .crash

/-- Rust `char::is_ascii_whitespace`: space, tab, newline, form feed,
carriage return. -/
def isAsciiWs (c : Char) : Bool :=
  c = ' ' || c = '\t' || c = '\n' || c = '\x0c' || c = '\r'

/-- Rust `char::is_whitespace` (the Unicode White_Space property), used by
`str::trim`.  The code points are the full Unicode White_Space set. -/
def isUniWs (c : Char) : Bool :=
  c.toNat ∈ [0x09, 0x0a, 0x0b, 0x0c, 0x0d, 0x20, 0x85, 0xa0, 0x1680,
    0x2000, 0x2001, 0x2002, 0x2003, 0x2004, 0x2005, 0x2006, 0x2007,
    0x2008, 0x2009, 0x200a, 0x2028, 0x2029, 0x202f, 0x205f, 0x3000]

/-- Rust `char::to_ascii_lowercase`. -/
def asciiLower (c : Char) : Char :=
  if 'A' ≤ c ∧ c ≤ 'Z' then Char.ofNat (c.toNat + 32) else c

/-- Lowercase a whole token (`str::to_ascii_lowercase`). -/
def lowerStr (s : List Char) : List Char := s.map asciiLower

/-- Does the token list start with the given literal (Rust
`str::starts_with` with a string pattern)? -/
def startsWithStr : List Char → List Char → Bool
  | [], _ => true
  | _ :: _, [] => false
  | p :: ps, c :: cs => p = c && startsWithStr ps cs

/-- Rust `str::starts_with('#')`. -/
def startsHash (t : List Char) : Bool :=
  match t with
  | '#' :: _ => true
  | _ => false

/-- The number of UTF-8 bytes of a character (Rust `char::len_utf8`). -/
def utf8Len (c : Char) : Nat :=
  if c.toNat < 0x80 then 1
  else if c.toNat < 0x800 then 2
  else if c.toNat < 0x10000 then 3 else 4

/-- The first `n` BYTES of a string as characters; `none` when `n` is not a
character boundary or exceeds the length (models the front part of Rust
`str::get` on byte ranges). -/
def byteTake : Nat → List Char → Option (List Char)
  | 0, _ => some []
  | _ + 1, [] => none
  | n + 1, c :: cs =>
    if utf8Len c ≤ n + 1 then (byteTake (n + 1 - utf8Len c) cs).map (c :: ·)
    else none

/-- Drop the first `n` BYTES of a string; `none` when `n` is not a character
boundary or exceeds the length (models Rust `str::get(n..)`). -/
def byteDrop : Nat → List Char → Option (List Char)
  | 0, s => some s
  | _ + 1, [] => none
  | n + 1, c :: cs =>
    if utf8Len c ≤ n + 1 then byteDrop (n + 1 - utf8Len c) cs
    else none

/-- Value of a nonempty all-ASCII-digit token, `none` otherwise (the digit
phase shared by the Rust integer `FromStr` implementations). -/
def parseDigits (s : List Char) : Option Nat :=
  if s = [] then none
  else if s.all Char.isDigit then
    some (s.foldl (fun acc c => 10 * acc + (c.toNat - 48)) 0)
  else none

/-- Rust `i8::from_str`: optional sign, digits, range check -128..=127. -/
def parseI8 (s : List Char) : Option Int :=
  match s with
  | '-' :: rest => (parseDigits rest).bind fun n =>
      if n ≤ 128 then some (-(n : Int)) else none
  | '+' :: rest => (parseDigits rest).bind fun n =>
      if n ≤ 127 then some (n : Int) else none
  | _ => (parseDigits s).bind fun n =>
      if n ≤ 127 then some (n : Int) else none

/-- Rust `u8::from_str`: optional plus sign, digits, range check 0..=255; a
minus sign is always rejected. -/
def parseU8 (s : List Char) : Option Nat :=
  match s with
  | '+' :: rest => (parseDigits rest).bind fun n =>
      if n ≤ 255 then some n else none
  | '-' :: _ => none
  | _ => (parseDigits s).bind fun n =>
      if n ≤ 255 then some n else none

/-- Rust `i64::from_str`: optional sign, digits, 64-bit range check. -/
def parseI64 (s : List Char) : Option Int :=
  match s with
  | '-' :: rest => (parseDigits rest).bind fun n =>
      if (n : Int) ≤ 2 ^ 63 then some (-(n : Int)) else none
  | '+' :: rest => (parseDigits rest).bind fun n =>
      if (n : Int) ≤ 2 ^ 63 - 1 then some (n : Int) else none
  | _ => (parseDigits s).bind fun n =>
      if (n : Int) ≤ 2 ^ 63 - 1 then some (n : Int) else none

/-- Rust `i8 as` conversion of a `u8` value: two's-complement
reinterpretation. -/
def u8_as_i8 (n : Nat) : Int :=
  if n ≤ 127 then (n : Int) else (n : Int) - 256

/-- Checked `i64` addition.  Rust integer arithmetic whose result leaves
the type's range does not return normally: with overflow checks on (debug
builds) it panics at the operation, and the release-mode wrapping
alternative is noted where it matters.  The `i64` range is
`-2^63 ..= 2^63 - 1`; `none` is the overflow panic. -/
def chkAdd (a b : Int) : Option Int :=
  if -9223372036854775808 ≤ a + b ∧ a + b ≤ 9223372036854775807 then some (a + b)
  else none

/-- Checked `i64` subtraction; `none` is the overflow panic. -/
def chkSub (a b : Int) : Option Int :=
  if -9223372036854775808 ≤ a - b ∧ a - b ≤ 9223372036854775807 then some (a - b)
  else none

/-- Rust `str::split_ascii_whitespace`: maximal runs of
non-ASCII-whitespace characters, in order. -/
def splitWs : List Char → List (List Char)
  | [] => []
  | c :: cs =>
    if isAsciiWs c then splitWs cs
    else
      match splitWs cs, cs with
      | _, [] => [[c]]
      | parts, d :: _ =>
        if isAsciiWs d then [c] :: parts
        else
          match parts with
          | t :: ts => (c :: t) :: ts
          | [] => [[c]]

/-- Rust `str::split(':')`: always at least one (possibly empty) part. -/
def splitOnChar (sep : Char) : List Char → List (List Char)
  | [] => [[]]
  | c :: cs =>
    if c = sep then [] :: splitOnChar sep cs
    else
      match splitOnChar sep cs with
      | p :: ps => (c :: p) :: ps
      | [] => [[c]]

/-- Everything before the first `#` (Rust
`input.split_once('#')` keeping only the left half, or the whole line). -/
def stripComment (input : List Char) : List Char :=
  input.takeWhile (fun c => c ≠ '#')

/-- The `Year` field type. -/
inductive Year where
  | Minimum : Year
  | Maximum : Year
  | Number : Int → Year
deriving DecidableEq

/-- Parse a year column (`impl FromStr for Year`).  The numeric branch
parses the lowercased text, as the source does. -/
def Year.from_str (input : List Char) : PRes Year :=
  let low := lowerStr input
  if low = "min".toList ∨ low = "minimum".toList then .ok .Minimum
  else if low = "max".toList ∨ low = "maximum".toList then .ok .Maximum
  else
    match parseI64 low with
    | some n => .ok (.Number n)
    | none => .fail (.FailedYearParse input)

/-- Calendar months (`enum Month`, discriminants 1..=12). -/
inductive Month where
  | January | February | March | April | May | June
  | July | August | September | October | November | December
deriving DecidableEq

/-- The Rust discriminant `month as i64` (January = 1). -/
def monthNum : Month → Int
  | .January => 1
  | .February => 2
  | .March => 3
  | .April => 4
  | .May => 5
  | .June => 6
  | .July => 7
  | .August => 8
  | .September => 9
  | .October => 10
  | .November => 11
  | .December => 12

/-- Month length in days (`Month::length`). -/
def Month.length (m : Month) (is_leap : Bool) : Int :=
  match m with
  | .January => 31
  | .February => if is_leap then 29 else 28
  | .March => 31
  | .April => 30
  | .May => 31
  | .June => 30
  | .July => 31
  | .August => 31
  | .September => 30
  | .October => 31
  | .November => 30
  | .December => 31

/-- Next calendar month; fails (reported, not a panic) from December
(`Month::next_in_year`). -/
def Month.next_in_year : Month → Option Month
  | .January => some .February
  | .February => some .March
  | .March => some .April
  | .April => some .May
  | .May => some .June
  | .June => some .July
  | .July => some .August
  | .August => some .September
  | .September => some .October
  | .October => some .November
  | .November => some .December
  | .December => none

/-- Previous calendar month; fails from January (`Month::prev_in_year`). -/
def Month.prev_in_year : Month → Option Month
  | .January => none
  | .February => some .January
  | .March => some .February
  | .April => some .March
  | .May => some .April
  | .June => some .May
  | .July => some .June
  | .August => some .July
  | .September => some .August
  | .October => some .September
  | .November => some .October
  | .December => some .November

/-- Parse a month name (`impl FromStr for Month`); the error carries the
lowercased text, as in the source. -/
def Month.from_str (input : List Char) : PRes Month :=
  let low := lowerStr input
  if low = "jan".toList ∨ low = "january".toList then .ok .January
  else if low = "feb".toList ∨ low = "february".toList then .ok .February
  else if low = "mar".toList ∨ low = "march".toList then .ok .March
  else if low = "apr".toList ∨ low = "april".toList then .ok .April
  else if low = "may".toList then .ok .May
  else if low = "jun".toList ∨ low = "june".toList then .ok .June
  else if low = "jul".toList ∨ low = "july".toList then .ok .July
  else if low = "aug".toList ∨ low = "august".toList then .ok .August
  else if low = "sep".toList ∨ low = "september".toList then .ok .September
  else if low = "oct".toList ∨ low = "october".toList then .ok .October
  else if low = "nov".toList ∨ low = "november".toList then .ok .November
  else if low = "dec".toList ∨ low = "december".toList then .ok .December
  else .fail (.FailedMonthParse low)

/-- Days of the week (`enum Weekday`). -/
inductive Weekday where
  | Sunday | Monday | Tuesday | Wednesday | Thursday | Friday | Saturday
deriving DecidableEq

/-- Parse a weekday name (`impl FromStr for Weekday`); the error carries the
lowercased text. -/
def Weekday.from_str (input : List Char) : PRes Weekday :=
  let low := lowerStr input
  if low = "mon".toList ∨ low = "monday".toList then .ok .Monday
  else if low = "tue".toList ∨ low = "tuesday".toList then .ok .Tuesday
  else if low = "wed".toList ∨ low = "wednesday".toList then .ok .Wednesday
  else if low = "thu".toList ∨ low = "thursday".toList then .ok .Thursday
  else if low = "fri".toList ∨ low = "friday".toList then .ok .Friday
  else if low = "sat".toList ∨ low = "saturday".toList then .ok .Saturday
  else if low = "sun".toList ∨ low = "sunday".toList then .ok .Sunday
  else .fail (.FailedWeekdayParse low)

/-- The capitalised three-letter weekday tokens of tz source files (used to
state claims about day-spec tokens such as `Sun>=200`). -/
def weekdayShortName : Weekday → List Char
  | .Sunday => ['S', 'u', 'n']
  | .Monday => ['M', 'o', 'n']
  | .Tuesday => ['T', 'u', 'e']
  | .Wednesday => ['W', 'e', 'd']
  | .Thursday => ['T', 'h', 'u']
  | .Friday => ['F', 'r', 'i']
  | .Saturday => ['S', 'a', 't']

/-- The congruence table `T` of `Weekday::calculate`. -/
def zellerTable : List Int := [0, 3, 2, 5, 0, 3, 5, 1, 4, 6, 2, 4]

/-- The final `match ... % 7` of `Weekday::calculate`: residues 0..=6 name a
weekday, anything else (a negative Rust remainder) hits the `panic!` arm. -/
def weekdayFromRem (r : Int) : Option Weekday :=
  if r = 0 then some .Sunday
  else if r = 1 then some .Monday
  else if r = 2 then some .Tuesday
  else if r = 3 then some .Wednesday
  else if r = 4 then some .Thursday
  else if r = 5 then some .Friday
  else if r = 6 then some .Saturday
  else none

/-- Day-of-week computation (`Weekday::calculate`).  Rust `/` and `%` on
`i64` truncate towards zero, hence `Int.tdiv` / `Int.tmod`; the year
adjustment and the additions of the Zeller sum are checked `i64`
operations, evaluated left to right as in the source, so a sum that
leaves the `i64` range is an overflow panic (`none`).  (With overflow
checks off the sum instead wraps, and at `year = i64::MAX` the wrapped
sum is negative, hitting the `panic!` arm all the same.)  A negative
remainder also hits the `panic!` arm (`none`). -/
def Weekday.calculate (year : Int) (month : Month) (day : Int) : Option Weekday :=
  let m := monthNum month
  (if m < 3 then chkSub year 1 else some year).bind fun y =>
    (chkAdd y (Int.tdiv y 4)).bind fun s1 =>
      (chkSub s1 (Int.tdiv y 100)).bind fun s2 =>
        (chkAdd s2 (Int.tdiv y 400)).bind fun s3 =>
          (chkAdd s3 (zellerTable.getD (m - 1).toNat 0)).bind fun s4 =>
            (chkAdd s4 day).bind fun s5 =>
              weekdayFromRem (Int.tmod s5 7)

/-- Gregorian leap-year test (`fn is_leap`).  The source tests
`year & 3 == 0`, `year % 25 != 0`, `year & 15 == 0`; a two's-complement
mask `& (2^k - 1)` equals the nonnegative residue `% 2^k`, and Rust's
truncating `%` agrees with the Euclidean `%` on the `!= 0` test, so the
three tests are the Euclidean residue tests below. -/
def is_leap (year : Int) : Bool :=
  year % 4 == 0 && (year % 25 != 0 || year % 16 == 0)

/-- The `TimeSpec` field type; components are `i8` in the source. -/
inductive TimeSpec where
  | Hours : Int → TimeSpec
  | HoursMinutes : Int → Int → TimeSpec
  | HoursMinutesSeconds : Int → Int → Int → TimeSpec
  | Zero : TimeSpec
deriving DecidableEq

/-- Seconds past midnight of a `TimeSpec` (`TimeSpec::as_seconds`). -/
def TimeSpec.as_seconds : TimeSpec → Int
  | .Hours h => h * 60 * 60
  | .HoursMinutes h m => h * 60 * 60 + m * 60
  | .HoursMinutesSeconds h m s => h * 60 * 60 + m * 60 + s
  | .Zero => 0

/-- The fold of `TimeSpec::from_str`: the state is the `TimeSpec` built so
far (starting from `Zero`), one colon-separated part consumed per step. -/
def tsFold (orig : List Char) (neg : Int) : TimeSpec → List (List Char) → PRes TimeSpec
  | st, [] => .ok st
  | st, part :: rest =>
    match st with
    | .Zero =>
      match parseI8 part with
      | some h => tsFold orig neg (.Hours h) rest
      | none => .fail (.InvalidTimeSpecAndType orig)
    | .Hours hours =>
      if part.length = 2 then
        match parseI8 part with
        | some m => tsFold orig neg (.HoursMinutes hours (m * neg)) rest
        | none => .fail (.InvalidTimeSpecAndType orig)
      else .fail (.InvalidTimeSpecAndType orig)
    | .HoursMinutes hours minutes =>
      if part.length = 2 then
        match parseI8 part with
        | some s => tsFold orig neg (.HoursMinutesSeconds hours minutes (s * neg)) rest
        | none => .fail (.InvalidTimeSpecAndType orig)
      else .fail (.InvalidTimeSpecAndType orig)
    | .HoursMinutesSeconds _ _ _ => .fail (.InvalidTimeSpecAndType orig)

/-- Parse a time column (`impl FromStr for TimeSpec`): "-" is `Zero`,
otherwise fold over the parts split on ':'; the sign of the whole token
multiplies every component after the hours. -/
def TimeSpec.from_str (input : List Char) : PRes TimeSpec :=
  if input = ['-'] then .ok .Zero
  else
    tsFold input (if startsWithStr ['-'] input then -1 else 1) .Zero
      (splitOnChar ':' input)

/-- The reference frame of a time value (`enum TimeType`). -/
inductive TimeType where
  | Wall | Standard | UTC
deriving DecidableEq

/-- Suffix letter to reference frame (`TimeType::from_char`). -/
def TimeType.from_char (c : Char) : Option TimeType :=
  if c = 'w' then some .Wall
  else if c = 's' then some .Standard
  else if c = 'u' ∨ c = 'g' ∨ c = 'z' then some .UTC
  else none

/-- A time with its reference frame (tuple struct `TimeSpecAndType`). -/
structure TimeSpecAndType where
  fst : TimeSpec
  snd : TimeType
deriving DecidableEq

/-- Parse a time-with-frame column (`impl FromStr for TimeSpecAndType`).
The byte slice `&input[..input.len() - 1]` is only reached when the last
character is one of the one-byte suffix letters, so it is `dropLast`. -/
def TimeSpecAndType.from_str (input : List Char) : PRes TimeSpecAndType :=
  if input = ['-'] then .ok ⟨.Zero, .Wall⟩
  else if input.all (fun c => c = '-' || c.isDigit) then
    (TimeSpec.from_str input).then fun s => .ok ⟨s, .Wall⟩
  else
    let st : List Char × Option TimeType :=
      match input.getLast? with
      | some c =>
        match TimeType.from_char c with
        | some ty => (input.dropLast, some ty)
        | none => (input, none)
      | none => (input, none)
    (TimeSpec.from_str st.1).then fun s => .ok ⟨s, st.2.getD .Wall⟩

/-- Attach a frame to a time (`TimeSpec::with_type`). -/
def TimeSpec.with_type (t : TimeSpec) (ty : TimeType) : TimeSpecAndType := ⟨t, ty⟩

/-- The code points of the Unicode `Alphabetic` property
(`char::is_alphabetic`), as inclusive code-point ranges.  Tabulated from
the Unicode character database, version 14.0, as the letter general
categories Lu/Ll/Lt/Lm/Lo together with Nl; the `Other_Alphabetic`
extras (a set of combining marks that also count as alphabetic) are not
tabulated, so the theorems below that rest on this column restrict their
tokens to ASCII, where the table is exact. -/
def alphabeticRanges : List (Nat × Nat) := [
  (65, 90), (97, 122), (170, 170), (181, 181), (186, 186), (192, 214),
  (216, 246), (248, 705), (710, 721), (736, 740), (748, 748), (750, 750),
  (880, 884), (886, 887), (890, 893), (895, 895), (902, 902), (904, 906),
  (908, 908), (910, 929), (931, 1013), (1015, 1153), (1162, 1327), (1329, 1366),
  (1369, 1369), (1376, 1416), (1488, 1514), (1519, 1522), (1568, 1610), (1646, 1647),
  (1649, 1747), (1749, 1749), (1765, 1766), (1774, 1775), (1786, 1788), (1791, 1791),
  (1808, 1808), (1810, 1839), (1869, 1957), (1969, 1969), (1994, 2026), (2036, 2037),
  (2042, 2042), (2048, 2069), (2074, 2074), (2084, 2084), (2088, 2088), (2112, 2136),
  (2144, 2154), (2160, 2183), (2185, 2190), (2208, 2249), (2308, 2361), (2365, 2365),
  (2384, 2384), (2392, 2401), (2417, 2432), (2437, 2444), (2447, 2448), (2451, 2472),
  (2474, 2480), (2482, 2482), (2486, 2489), (2493, 2493), (2510, 2510), (2524, 2525),
  (2527, 2529), (2544, 2545), (2556, 2556), (2565, 2570), (2575, 2576), (2579, 2600),
  (2602, 2608), (2610, 2611), (2613, 2614), (2616, 2617), (2649, 2652), (2654, 2654),
  (2674, 2676), (2693, 2701), (2703, 2705), (2707, 2728), (2730, 2736), (2738, 2739),
  (2741, 2745), (2749, 2749), (2768, 2768), (2784, 2785), (2809, 2809), (2821, 2828),
  (2831, 2832), (2835, 2856), (2858, 2864), (2866, 2867), (2869, 2873), (2877, 2877),
  (2908, 2909), (2911, 2913), (2929, 2929), (2947, 2947), (2949, 2954), (2958, 2960),
  (2962, 2965), (2969, 2970), (2972, 2972), (2974, 2975), (2979, 2980), (2984, 2986),
  (2990, 3001), (3024, 3024), (3077, 3084), (3086, 3088), (3090, 3112), (3114, 3129),
  (3133, 3133), (3160, 3162), (3165, 3165), (3168, 3169), (3200, 3200), (3205, 3212),
  (3214, 3216), (3218, 3240), (3242, 3251), (3253, 3257), (3261, 3261), (3293, 3294),
  (3296, 3297), (3313, 3314), (3332, 3340), (3342, 3344), (3346, 3386), (3389, 3389),
  (3406, 3406), (3412, 3414), (3423, 3425), (3450, 3455), (3461, 3478), (3482, 3505),
  (3507, 3515), (3517, 3517), (3520, 3526), (3585, 3632), (3634, 3635), (3648, 3654),
  (3713, 3714), (3716, 3716), (3718, 3722), (3724, 3747), (3749, 3749), (3751, 3760),
  (3762, 3763), (3773, 3773), (3776, 3780), (3782, 3782), (3804, 3807), (3840, 3840),
  (3904, 3911), (3913, 3948), (3976, 3980), (4096, 4138), (4159, 4159), (4176, 4181),
  (4186, 4189), (4193, 4193), (4197, 4198), (4206, 4208), (4213, 4225), (4238, 4238),
  (4256, 4293), (4295, 4295), (4301, 4301), (4304, 4346), (4348, 4680), (4682, 4685),
  (4688, 4694), (4696, 4696), (4698, 4701), (4704, 4744), (4746, 4749), (4752, 4784),
  (4786, 4789), (4792, 4798), (4800, 4800), (4802, 4805), (4808, 4822), (4824, 4880),
  (4882, 4885), (4888, 4954), (4992, 5007), (5024, 5109), (5112, 5117), (5121, 5740),
  (5743, 5759), (5761, 5786), (5792, 5866), (5870, 5880), (5888, 5905), (5919, 5937),
  (5952, 5969), (5984, 5996), (5998, 6000), (6016, 6067), (6103, 6103), (6108, 6108),
  (6176, 6264), (6272, 6276), (6279, 6312), (6314, 6314), (6320, 6389), (6400, 6430),
  (6480, 6509), (6512, 6516), (6528, 6571), (6576, 6601), (6656, 6678), (6688, 6740),
  (6823, 6823), (6917, 6963), (6981, 6988), (7043, 7072), (7086, 7087), (7098, 7141),
  (7168, 7203), (7245, 7247), (7258, 7293), (7296, 7304), (7312, 7354), (7357, 7359),
  (7401, 7404), (7406, 7411), (7413, 7414), (7418, 7418), (7424, 7615), (7680, 7957),
  (7960, 7965), (7968, 8005), (8008, 8013), (8016, 8023), (8025, 8025), (8027, 8027),
  (8029, 8029), (8031, 8061), (8064, 8116), (8118, 8124), (8126, 8126), (8130, 8132),
  (8134, 8140), (8144, 8147), (8150, 8155), (8160, 8172), (8178, 8180), (8182, 8188),
  (8305, 8305), (8319, 8319), (8336, 8348), (8450, 8450), (8455, 8455), (8458, 8467),
  (8469, 8469), (8473, 8477), (8484, 8484), (8486, 8486), (8488, 8488), (8490, 8493),
  (8495, 8505), (8508, 8511), (8517, 8521), (8526, 8526), (8544, 8584), (11264, 11492),
  (11499, 11502), (11506, 11507), (11520, 11557), (11559, 11559), (11565, 11565), (11568, 11623),
  (11631, 11631), (11648, 11670), (11680, 11686), (11688, 11694), (11696, 11702), (11704, 11710),
  (11712, 11718), (11720, 11726), (11728, 11734), (11736, 11742), (11823, 11823), (12293, 12295),
  (12321, 12329), (12337, 12341), (12344, 12348), (12353, 12438), (12445, 12447), (12449, 12538),
  (12540, 12543), (12549, 12591), (12593, 12686), (12704, 12735), (12784, 12799), (13312, 19903),
  (19968, 42124), (42192, 42237), (42240, 42508), (42512, 42527), (42538, 42539), (42560, 42606),
  (42623, 42653), (42656, 42735), (42775, 42783), (42786, 42888), (42891, 42954), (42960, 42961),
  (42963, 42963), (42965, 42969), (42994, 43009), (43011, 43013), (43015, 43018), (43020, 43042),
  (43072, 43123), (43138, 43187), (43250, 43255), (43259, 43259), (43261, 43262), (43274, 43301),
  (43312, 43334), (43360, 43388), (43396, 43442), (43471, 43471), (43488, 43492), (43494, 43503),
  (43514, 43518), (43520, 43560), (43584, 43586), (43588, 43595), (43616, 43638), (43642, 43642),
  (43646, 43695), (43697, 43697), (43701, 43702), (43705, 43709), (43712, 43712), (43714, 43714),
  (43739, 43741), (43744, 43754), (43762, 43764), (43777, 43782), (43785, 43790), (43793, 43798),
  (43808, 43814), (43816, 43822), (43824, 43866), (43868, 43881), (43888, 44002), (44032, 55203),
  (55216, 55238), (55243, 55291), (63744, 64109), (64112, 64217), (64256, 64262), (64275, 64279),
  (64285, 64285), (64287, 64296), (64298, 64310), (64312, 64316), (64318, 64318), (64320, 64321),
  (64323, 64324), (64326, 64433), (64467, 64829), (64848, 64911), (64914, 64967), (65008, 65019),
  (65136, 65140), (65142, 65276), (65313, 65338), (65345, 65370), (65382, 65470), (65474, 65479),
  (65482, 65487), (65490, 65495), (65498, 65500), (65536, 65547), (65549, 65574), (65576, 65594),
  (65596, 65597), (65599, 65613), (65616, 65629), (65664, 65786), (65856, 65908), (66176, 66204),
  (66208, 66256), (66304, 66335), (66349, 66378), (66384, 66421), (66432, 66461), (66464, 66499),
  (66504, 66511), (66513, 66517), (66560, 66717), (66736, 66771), (66776, 66811), (66816, 66855),
  (66864, 66915), (66928, 66938), (66940, 66954), (66956, 66962), (66964, 66965), (66967, 66977),
  (66979, 66993), (66995, 67001), (67003, 67004), (67072, 67382), (67392, 67413), (67424, 67431),
  (67456, 67461), (67463, 67504), (67506, 67514), (67584, 67589), (67592, 67592), (67594, 67637),
  (67639, 67640), (67644, 67644), (67647, 67669), (67680, 67702), (67712, 67742), (67808, 67826),
  (67828, 67829), (67840, 67861), (67872, 67897), (67968, 68023), (68030, 68031), (68096, 68096),
  (68112, 68115), (68117, 68119), (68121, 68149), (68192, 68220), (68224, 68252), (68288, 68295),
  (68297, 68324), (68352, 68405), (68416, 68437), (68448, 68466), (68480, 68497), (68608, 68680),
  (68736, 68786), (68800, 68850), (68864, 68899), (69248, 69289), (69296, 69297), (69376, 69404),
  (69415, 69415), (69424, 69445), (69488, 69505), (69552, 69572), (69600, 69622), (69635, 69687),
  (69745, 69746), (69749, 69749), (69763, 69807), (69840, 69864), (69891, 69926), (69956, 69956),
  (69959, 69959), (69968, 70002), (70006, 70006), (70019, 70066), (70081, 70084), (70106, 70106),
  (70108, 70108), (70144, 70161), (70163, 70187), (70272, 70278), (70280, 70280), (70282, 70285),
  (70287, 70301), (70303, 70312), (70320, 70366), (70405, 70412), (70415, 70416), (70419, 70440),
  (70442, 70448), (70450, 70451), (70453, 70457), (70461, 70461), (70480, 70480), (70493, 70497),
  (70656, 70708), (70727, 70730), (70751, 70753), (70784, 70831), (70852, 70853), (70855, 70855),
  (71040, 71086), (71128, 71131), (71168, 71215), (71236, 71236), (71296, 71338), (71352, 71352),
  (71424, 71450), (71488, 71494), (71680, 71723), (71840, 71903), (71935, 71942), (71945, 71945),
  (71948, 71955), (71957, 71958), (71960, 71983), (71999, 71999), (72001, 72001), (72096, 72103),
  (72106, 72144), (72161, 72161), (72163, 72163), (72192, 72192), (72203, 72242), (72250, 72250),
  (72272, 72272), (72284, 72329), (72349, 72349), (72368, 72440), (72704, 72712), (72714, 72750),
  (72768, 72768), (72818, 72847), (72960, 72966), (72968, 72969), (72971, 73008), (73030, 73030),
  (73056, 73061), (73063, 73064), (73066, 73097), (73112, 73112), (73440, 73458), (73648, 73648),
  (73728, 74649), (74752, 74862), (74880, 75075), (77712, 77808), (77824, 78894), (82944, 83526),
  (92160, 92728), (92736, 92766), (92784, 92862), (92880, 92909), (92928, 92975), (92992, 92995),
  (93027, 93047), (93053, 93071), (93760, 93823), (93952, 94026), (94032, 94032), (94099, 94111),
  (94176, 94177), (94179, 94179), (94208, 100343), (100352, 101589), (101632, 101640), (110576, 110579),
  (110581, 110587), (110589, 110590), (110592, 110882), (110928, 110930), (110948, 110951), (110960, 111355),
  (113664, 113770), (113776, 113788), (113792, 113800), (113808, 113817), (119808, 119892), (119894, 119964),
  (119966, 119967), (119970, 119970), (119973, 119974), (119977, 119980), (119982, 119993), (119995, 119995),
  (119997, 120003), (120005, 120069), (120071, 120074), (120077, 120084), (120086, 120092), (120094, 120121),
  (120123, 120126), (120128, 120132), (120134, 120134), (120138, 120144), (120146, 120485), (120488, 120512),
  (120514, 120538), (120540, 120570), (120572, 120596), (120598, 120628), (120630, 120654), (120656, 120686),
  (120688, 120712), (120714, 120744), (120746, 120770), (120772, 120779), (122624, 122654), (123136, 123180),
  (123191, 123197), (123214, 123214), (123536, 123565), (123584, 123627), (124896, 124902), (124904, 124907),
  (124909, 124910), (124912, 124926), (124928, 125124), (125184, 125251), (125259, 125259), (126464, 126467),
  (126469, 126495), (126497, 126498), (126500, 126500), (126503, 126503), (126505, 126514), (126516, 126519),
  (126521, 126521), (126523, 126523), (126530, 126530), (126535, 126535), (126537, 126537), (126539, 126539),
  (126541, 126543), (126545, 126546), (126548, 126548), (126551, 126551), (126553, 126553), (126555, 126555),
  (126557, 126557), (126559, 126559), (126561, 126562), (126564, 126564), (126567, 126570), (126572, 126578),
  (126580, 126583), (126585, 126588), (126590, 126590), (126592, 126601), (126603, 126619), (126625, 126627),
  (126629, 126633), (126635, 126651), (131072, 173791), (173824, 177976), (177984, 178205), (178208, 183969),
  (183984, 191456), (194560, 195101), (196608, 201546)]

/-- Rust `char::is_alphabetic`: membership in the `Alphabetic` ranges. -/
def isAlphabetic (c : Char) : Bool :=
  alphabeticRanges.any (fun r => r.1 ≤ c.toNat && c.toNat ≤ r.2)

/-- The DST column of a zone record (`enum Saving`). -/
inductive Saving where
  | NoSaving : Saving
  | OneOff : TimeSpec → Saving
  | Multiple : List Char → Saving
deriving DecidableEq

/-- Parse the RULES/SAVE column (`Saving::from_str`). -/
def Saving.from_str (input : List Char) : PRes Saving :=
  if input = ['-'] then .ok .NoSaving
  else if input.all (fun c => c = '-' || c = '_' || isAlphabetic c) then
    .ok (.Multiple input)
  else
    match TimeSpec.from_str input with
    | .ok t => .ok (.OneOff t)
    | .fail _ => .fail (.CouldNotParseSaving input)
    | .crash => .crash

/-- The symbolic day-of-month field (`enum DaySpec`); day numbers are `i8`. -/
inductive DaySpec where
  | Ordinal : Int → DaySpec
  | Last : Weekday → DaySpec
  | LastOnOrBefore : Weekday → Int → DaySpec
  | FirstOnOrAfter : Weekday → Int → DaySpec
deriving DecidableEq

/-- Parse an ON column (`impl FromStr for DaySpec`).  The all-digit branch
calls `input.parse().unwrap()` with inferred type `i8`: when the digits do
not fit in `i8` the `unwrap` panics (`crash`).  The relative branch slices
bytes 0..3 (weekday), 3..5 (the literal `>=` or `<=`) and 5.. (a `u8` day
number that is then cast `as i8`). -/
def DaySpec.from_str (input : List Char) : PRes DaySpec :=
  if input.all Char.isDigit then
    match parseI8 input with
    | some n => .ok (.Ordinal n)
    | none => .crash
  else
    match input with
    | 'l' :: 'a' :: 's' :: 't' :: remainder =>
      (Weekday.from_str remainder).then fun w => .ok (.Last w)
    | _ =>
      match byteTake 3 input with
      | none => .fail (.InvalidDaySpec input)
      | some wd =>
        (Weekday.from_str wd).then fun weekday =>
          match (byteDrop 3 input).bind (byteTake 2) with
          | some dir =>
            if dir = ">=".toList ∨ dir = "<=".toList then
              match byteDrop 5 input with
              | some daycs =>
                match parseU8 daycs with
                | some n =>
                  if dir = ">=".toList then
                    .ok (.FirstOnOrAfter weekday (u8_as_i8 n))
                  else
                    .ok (.LastOnOrBefore weekday (u8_as_i8 n))
                | none => .fail (.InvalidDaySpec input)
              | none => .fail (.InvalidDaySpec input)
            else .fail (.InvalidDaySpec input)
          | none => .fail (.InvalidDaySpec input)

/-- Candidate days for `DaySpec::Last`: `(1..length + 1).rev()`. -/
def descDays (len : Int) : List Int :=
  (List.range len.toNat).reverse.map (fun i => (i : Int) + 1)

/-- Candidate offsets for `DaySpec::LastOnOrBefore`: `(-7..day + 1).rev()`.
The bound `day + 1` is computed in `i8`, so at `day = 127` it overflows:
a panic with overflow checks on, and with them off the wrapped bound
`-128` makes the range empty, so the `.next().unwrap()` that consumes the
scan panics.  Either way no candidate is produced (`[]`, hence `none`
from the search). -/
def lobDays (day : Int) : List Int :=
  if 127 < day + 1 then []
  else (List.range (day + 8).toNat).map (fun i => day - (i : Int))

/-- Candidate offsets for `DaySpec::FirstOnOrAfter`: `day..day + 8`.  The
bound `day + 8` is computed in `i8`, so for `day ≥ 120` it overflows: a
panic with overflow checks on, and with them off the wrapped negative
bound makes the range empty, so the `.next().unwrap()` that consumes the
scan panics.  Either way no candidate is produced (`[]`, hence `none`
from the search). -/
def foaDays (day : Int) : List Int :=
  if 127 < day + 8 then []
  else (List.range 8).map (fun i => day + (i : Int))

/-- The `find` of the `DaySpec::Last` arm: scan days downward for the
weekday; an exhausted scan is the source's `.unwrap()` panic, and a panic
inside `Weekday::calculate` propagates. -/
def lastSearch (year : Int) (month : Month) (w : Weekday) : List Int → Option Int
  | [] => none
  | d :: ds =>
    match Weekday.calculate year month d with
    | none => none
    | some wd => if wd = w then some d else lastSearch year month w ds

/-- The scan of the `DaySpec::LastOnOrBefore` arm.  Offsets below 1 look in
the previous month; `prev_in_year().unwrap()` panics from January. -/
def lobSearch (year : Int) (month : Month) (prevLen : Int) (w : Weekday) :
    List Int → Option (Month × Int)
  | [] => none
  | d :: ds =>
    if 1 ≤ d then
      match Weekday.calculate year month d with
      | none => none
      | some wd => if wd = w then some (month, d) else lobSearch year month prevLen w ds
    else
      match month.prev_in_year with
      | none => none
      | some pm =>
        match Weekday.calculate year pm (prevLen + d) with
        | none => none
        | some wd =>
          if wd = w then some (pm, prevLen + d) else lobSearch year month prevLen w ds

/-- The scan of the `DaySpec::FirstOnOrAfter` arm.  Offsets beyond the month
length look in the next month; `next_in_year().unwrap()` panics from
December. -/
def foaSearch (year : Int) (month : Month) (len : Int) (w : Weekday) :
    List Int → Option (Month × Int)
  | [] => none
  | d :: ds =>
    if d ≤ len then
      match Weekday.calculate year month d with
      | none => none
      | some wd => if wd = w then some (month, d) else foaSearch year month len w ds
    else
      match month.next_in_year with
      | none => none
      | some nm =>
        match Weekday.calculate year nm (d - len) with
        | none => none
        | some wd =>
          if wd = w then some (nm, d - len) else foaSearch year month len w ds

/-- Resolve a symbolic day to a concrete (month, day)
(`DaySpec::to_concrete_day`); `none` is a panic. -/
def DaySpec.to_concrete_day (ds : DaySpec) (year : Int) (month : Month) :
    Option (Month × Int) :=
  let leap := is_leap year
  let length := month.length leap
  let prev_length : Int :=
    match month.prev_in_year with
    | some m => m.length leap
    | none => 0
  match ds with
  | .Ordinal day => some (month, day)
  | .Last weekday => (lastSearch year month weekday (descDays length)).map (fun d => (month, d))
  | .LastOnOrBefore weekday day => lobSearch year month prev_length weekday (lobDays day)
  | .FirstOnOrAfter weekday day => foaSearch year month length weekday (foaDays day)

/-- The change instant of a zone line (`enum ChangeTime`). -/
inductive ChangeTime where
  | UntilYear : Year → ChangeTime
  | UntilMonth : Year → Month → ChangeTime
  | UntilDay : Year → Month → DaySpec → ChangeTime
  | UntilTime : Year → Month → DaySpec → TimeSpecAndType → ChangeTime
deriving DecidableEq

/-- Seconds in a calendar year (`seconds_in_year` in
`ChangeTime::to_timestamp`). -/
def seconds_in_year (year : Int) : Int :=
  if is_leap year then 366 * 24 * 60 * 60 else 365 * 24 * 60 * 60

/-- Sum of `seconds_in_year` over `n` consecutive years starting at
`start` (the range sums in `seconds_until_start_of_year`).  The `i64` sum
is checked (`none` is the overflow panic); every summand is positive, so
every partial sum is at most the total and the checked result does not
depend on the summation order. -/
def sum_seconds (start : Int) : Nat → Option Int
  | 0 => some 0
  | n + 1 =>
    (sum_seconds (start + 1) n).bind fun rest => chkAdd (seconds_in_year start) rest

/-- Seconds from the epoch to the start of a year
(`seconds_until_start_of_year`): forward from 1970, negated backward sum
before 1970.  The negation is the checked `i64` negation (it can never
overflow here, the sum being nonnegative). -/
def seconds_until_start_of_year (year : Int) : Option Int :=
  if 1970 ≤ year then sum_seconds 1970 (year - 1970).toNat
  else (sum_seconds year (1970 - year).toNat).bind fun s => chkSub 0 s

/-- Cumulative days before each month, non-leap (`MONTHS_NON_LEAP`). -/
def MONTHS_NON_LEAP : List Int :=
  [0, 31, 59, 90, 120, 151, 181, 212, 243, 273, 304, 334]

/-- Cumulative days before each month, leap (`MONTHS_LEAP`). -/
def MONTHS_LEAP : List Int :=
  [0, 31, 60, 91, 121, 152, 182, 213, 244, 274, 305, 335]

/-- Civil time to Unix seconds (`time_to_timestamp` in
`ChangeTime::to_timestamp`); `month` is the 1-based month number.  The
six-term sum is evaluated left to right with checked `i64` additions; the
products themselves cannot overflow for the `i8`-ranged month, day, hour,
minute and second arguments the source passes. -/
def time_to_timestamp (year month day hour minute second : Int) : Option Int :=
  (seconds_until_start_of_year year).bind fun base =>
    (chkAdd base (60 * 60 * 24 *
        (if is_leap year then MONTHS_LEAP.getD (month - 1).toNat 0
         else MONTHS_NON_LEAP.getD (month - 1).toNat 0))).bind fun t1 =>
      (chkAdd t1 (60 * 60 * 24 * (day - 1))).bind fun t2 =>
        (chkAdd t2 (60 * 60 * hour)).bind fun t3 =>
          (chkAdd t3 (60 * minute)).bind fun t4 =>
            chkAdd t4 second

/-- Change time to Unix timestamp (`ChangeTime::to_timestamp`).  `none`
covers the `unreachable!()` on `Minimum`/`Maximum` years, panics
propagating out of `to_concrete_day`, and `i64` overflow panics of the
final checked additions and subtraction.  In the source each `UntilTime`
arm recomputes `to_concrete_day` before feeding the hour/minute/second
fields; it is hoisted here, with the identical result. -/
def ChangeTime.to_timestamp : ChangeTime → Int → Int → Option Int
  | .UntilYear (.Number y), utc_offset, dst_offset =>
    (time_to_timestamp y 1 1 0 0 0).bind fun t =>
      (chkAdd utc_offset dst_offset).bind fun adj => chkSub t adj
  | .UntilMonth (.Number y) m, utc_offset, dst_offset =>
    (time_to_timestamp y (monthNum m) 1 0 0 0).bind fun t =>
      (chkAdd utc_offset dst_offset).bind fun adj => chkSub t adj
  | .UntilDay (.Number y) m d, utc_offset, dst_offset =>
    (d.to_concrete_day y m).bind fun p =>
      (time_to_timestamp y (monthNum p.1) p.2 0 0 0).bind fun t =>
        (chkAdd utc_offset dst_offset).bind fun adj => chkSub t adj
  | .UntilTime (.Number y) m d time, utc_offset, dst_offset =>
    (d.to_concrete_day y m).bind fun p =>
      (match time.fst with
       | .Zero => time_to_timestamp y (monthNum p.1) p.2 0 0 0
       | .Hours h => time_to_timestamp y (monthNum p.1) p.2 h 0 0
       | .HoursMinutes h mi => time_to_timestamp y (monthNum p.1) p.2 h mi 0
       | .HoursMinutesSeconds h mi s =>
         time_to_timestamp y (monthNum p.1) p.2 h mi s).bind fun t =>
        (match time.snd with
         | .UTC => some 0
         | .Standard => some utc_offset
         | .Wall => chkAdd utc_offset dst_offset).bind fun adj => chkSub t adj
  | _, _, _ => none

/-- The shared body of a zone line or continuation (`struct ZoneInfo`). -/
structure ZoneInfo where
  utc_offset : TimeSpec
  saving : Saving
  format : List Char
  time : Option ChangeTime
deriving DecidableEq

/-- The state of the `ZoneInfo::from_iter` fold (`enum ZoneInfoState`): the
columns collected so far. -/
inductive ZoneInfoState where
  | Start : ZoneInfoState
  | Save : TimeSpec → ZoneInfoState
  | Format : TimeSpec → Saving → ZoneInfoState
  | YearSt : TimeSpec → Saving → List Char → ZoneInfoState
  | MonthSt : TimeSpec → Saving → List Char → Year → ZoneInfoState
  | DaySt : TimeSpec → Saving → List Char → Year → Month → ZoneInfoState
  | TimeSt : TimeSpec → Saving → List Char → Year → Month → DaySpec → ZoneInfoState

/-- Finalisation of the fold when the tokens end (the `match state` after
the loop in `ZoneInfo::from_iter`). -/
def zoneInfoFinish : ZoneInfoState → PRes ZoneInfo
  | .Start => .fail .NotParsedAsZoneLine
  | .Save _ => .fail .NotParsedAsZoneLine
  | .Format _ _ => .fail .NotParsedAsZoneLine
  | .YearSt offset saving format => .ok ⟨offset, saving, format, none⟩
  | .MonthSt offset saving format year =>
    .ok ⟨offset, saving, format, some (.UntilYear year)⟩
  | .DaySt offset saving format year month =>
    .ok ⟨offset, saving, format, some (.UntilMonth year month)⟩
  | .TimeSt offset saving format year month day =>
    .ok ⟨offset, saving, format, some (.UntilDay year month day)⟩

/-- The fold of `ZoneInfo::from_iter`.  A token starting with `#` breaks
immediately and finalises from the current state; consuming the seventh
column returns `Ok` at once, ignoring any further tokens. -/
def zoneInfoFold : ZoneInfoState → List (List Char) → PRes ZoneInfo
  | st, [] => zoneInfoFinish st
  | st, part :: rest =>
    if startsHash part then zoneInfoFinish st
    else
      match st with
      | .Start =>
        (TimeSpec.from_str part).then fun offset => zoneInfoFold (.Save offset) rest
      | .Save offset =>
        (Saving.from_str part).then fun saving => zoneInfoFold (.Format offset saving) rest
      | .Format offset saving => zoneInfoFold (.YearSt offset saving part) rest
      | .YearSt offset saving format =>
        (Year.from_str part).then fun year =>
          zoneInfoFold (.MonthSt offset saving format year) rest
      | .MonthSt offset saving format year =>
        (Month.from_str part).then fun month =>
          zoneInfoFold (.DaySt offset saving format year month) rest
      | .DaySt offset saving format year month =>
        (DaySpec.from_str part).then fun day =>
          zoneInfoFold (.TimeSt offset saving format year month day) rest
      | .TimeSt offset saving format year month day =>
        (TimeSpecAndType.from_str part).then fun t =>
          .ok ⟨offset, saving, format, some (.UntilTime year month day t)⟩

/-- Parse the body of a zone or continuation line from its tokens
(`ZoneInfo::from_iter`). -/
def ZoneInfo.from_iter (parts : List (List Char)) : PRes ZoneInfo :=
  zoneInfoFold .Start parts

/-- One rule line (`struct Rule`). -/
structure Rule where
  name : List Char
  from_year : Year
  to_year : Option Year
  month : Month
  day : DaySpec
  time : TimeSpecAndType
  time_to_add : TimeSpec
  letters : Option (List Char)
deriving DecidableEq

/-- The state of the `Rule::from_str` fold (`enum RuleState`).  The source
state names `Type`, `Month`, `Day`, `Time` collide with Lean keywords or
the field types, so they carry a suffix here. -/
inductive RuleState where
  | Start : RuleState
  | Name : RuleState
  | FromYear : List Char → RuleState
  | ToYear : List Char → Year → RuleState
  | TypeCol : List Char → Year → Option Year → RuleState
  | MonthCol : List Char → Year → Option Year → RuleState
  | DayCol : List Char → Year → Option Year → Month → RuleState
  | TimeCol : List Char → Year → Option Year → Month → DaySpec → RuleState
  | TimeToAdd : List Char → Year → Option Year → Month → DaySpec → TimeSpecAndType → RuleState
  | Letters : List Char → Year → Option Year → Month → DaySpec → TimeSpecAndType → TimeSpec → RuleState

/-- The fold of `Rule::from_str`.  A token starting with `#` is SKIPPED
(`continue`): the fold then proceeds with the following tokens.  Reaching
the end of the tokens in any state is `NotParsedAsRuleLine`; consuming the
letters column returns `Ok` at once. -/
def ruleFold : RuleState → List (List Char) → PRes Rule
  | _, [] => .fail .NotParsedAsRuleLine
  | st, part :: rest =>
    if startsHash part then ruleFold st rest
    else
      match st with
      | .Start =>
        if part = "Rule".toList then ruleFold .Name rest
        else .fail .NotParsedAsRuleLine
      | .Name => ruleFold (.FromYear part) rest
      | .FromYear name =>
        (Year.from_str part).then fun y => ruleFold (.ToYear name y) rest
      | .ToYear name from_year =>
        if part = "only".toList then ruleFold (.TypeCol name from_year none) rest
        else
          (Year.from_str part).then fun y => ruleFold (.TypeCol name from_year (some y)) rest
      | .TypeCol name from_year to_year =>
        if part = ['-'] ∨ part = ['‐'] then ruleFold (.MonthCol name from_year to_year) rest
        else .fail (.TypeColumnContainedNonHyphen part)
      | .MonthCol name from_year to_year =>
        (Month.from_str part).then fun m => ruleFold (.DayCol name from_year to_year m) rest
      | .DayCol name from_year to_year month =>
        (DaySpec.from_str part).then fun d =>
          ruleFold (.TimeCol name from_year to_year month d) rest
      | .TimeCol name from_year to_year month day =>
        (TimeSpecAndType.from_str part).then fun t =>
          ruleFold (.TimeToAdd name from_year to_year month day t) rest
      | .TimeToAdd name from_year to_year month day time =>
        (TimeSpec.from_str part).then fun tta =>
          ruleFold (.Letters name from_year to_year month day time tta) rest
      | .Letters name from_year to_year month day time time_to_add =>
        .ok ⟨name, from_year, to_year, month, day, time, time_to_add,
          if part = ['-'] then none else some part⟩

/-- Parse a rule line (`Rule::from_str`). -/
def Rule.from_str (input : List Char) : PRes Rule :=
  ruleFold .Start (splitWs input)

/-- A zone record header (`struct Zone`). -/
structure Zone where
  name : List Char
  info : ZoneInfo
deriving DecidableEq

/-- Parse a zone line (`Zone::from_str`): the literal token `Zone`, a name,
then the shared `ZoneInfo::from_iter` body. -/
def Zone.from_str (input : List Char) : PRes Zone :=
  match splitWs input with
  | kw :: rest =>
    if kw = "Zone".toList then
      match rest with
      | name :: rest2 => (ZoneInfo.from_iter rest2).map (fun i => ⟨name, i⟩)
      | [] => .fail .NotParsedAsZoneLine
    else .fail .NotParsedAsZoneLine
  | [] => .fail .NotParsedAsZoneLine

/-- An alias record (`struct Link`). -/
structure Link where
  existing : List Char
  new : List Char
deriving DecidableEq

/-- Parse a link line (`Link::from_str`): the literal token `Link` and two
names; trailing tokens are ignored. -/
def Link.from_str (input : List Char) : PRes Link :=
  match splitWs input with
  | kw :: rest =>
    if kw = "Link".toList then
      match rest with
      | existing :: new :: _ => .ok ⟨existing, new⟩
      | _ => .fail .NotParsedAsLinkLine
    else .fail .NotParsedAsLinkLine
  | [] => .fail .NotParsedAsLinkLine

/-- The classification of one input line (`enum Line`). -/
inductive Line where
  | Space : Line
  | Zone : Zone → Line
  | Continuation : ZoneInfo → Line
  | Rule : Rule → Line
  | Link : Link → Line
deriving DecidableEq

/-- Rust `str::starts_with(&[' ', '\t'][..])`: the first character is a
space or a tab. -/
def startsSpaceTab (s : List Char) : Bool :=
  match s with
  | c :: _ => c = ' ' || c = '\t'
  | [] => false

/-- The line classifier (`Line::new`): strip the comment, report blank
lines, then dispatch on the leading token or indentation.  The blank test
`input.trim().is_empty()` holds exactly when every character is Unicode
whitespace. -/
def Line.new (input : List Char) : PRes Line :=
  let input := stripComment input
  if input.all isUniWs then .ok .Space
  else if startsWithStr "Zone".toList input then
    (Zone.from_str input).map Line.Zone
  else if startsSpaceTab input then
    (ZoneInfo.from_iter (splitWs input)).map Line.Continuation
  else if startsWithStr "Rule".toList input then
    (Rule.from_str input).map Line.Rule
  else if startsWithStr "Link".toList input then
    (Link.from_str input).map Line.Link
  else .fail (.InvalidLineType input)

/-!
Reference calendar model.  The definitions below follow the spec's words
("the ISO weekday of that proleptic-Gregorian date", "the signed Unix
timestamp of the described instant") rather than the source: they are the
independent yardstick the code is compared against.
-/

/-- Days of the proleptic Gregorian calendar strictly before January 1 of
`y`, counted from January 1 of year 1 (the standard rata-die prefix count;
`/` is floor division on these nonnegative-year arguments). -/
def daysBeforeYear (y : Int) : Int :=
  365 * (y - 1) + (y - 1) / 4 - (y - 1) / 100 + (y - 1) / 400

/-- Days of year `y` strictly before the first of the given month. -/
def monthsBefore (m : Month) (leap : Bool) : Int :=
  match m with
  | .January => 0
  | .February => 31
  | .March => if leap then 60 else 59
  | .April => if leap then 91 else 90
  | .May => if leap then 121 else 120
  | .June => if leap then 152 else 151
  | .July => if leap then 182 else 181
  | .August => if leap then 213 else 212
  | .September => if leap then 244 else 243
  | .October => if leap then 274 else 273
  | .November => if leap then 305 else 304
  | .December => if leap then 335 else 334

/-- The ISO weekday residue of a proleptic-Gregorian date: 0 = Sunday.
January 1 of year 1 is a Monday (residue 1), and each day advances the
residue by one. -/
def isoWeekdayNum (y : Int) (m : Month) (d : Int) : Int :=
  (daysBeforeYear y + monthsBefore m (is_leap y) + (d - 1) + 1) % 7

/-- Weekday named by a residue in 0..=6 (0 = Sunday). -/
def numToWeekday (r : Int) : Weekday :=
  if r = 0 then .Sunday
  else if r = 1 then .Monday
  else if r = 2 then .Tuesday
  else if r = 3 then .Wednesday
  else if r = 4 then .Thursday
  else if r = 5 then .Friday
  else .Saturday

/-- The ISO weekday of a proleptic-Gregorian date. -/
def isoWeekday (y : Int) (m : Month) (d : Int) : Weekday :=
  numToWeekday (isoWeekdayNum y m d)

/-- The signed Unix timestamp of a proleptic-Gregorian civil instant
(year, month, day, hour, minute, second); 719162 is the number of days
from year 1 to January 1 1970. -/
def specCivilTimestamp (y : Int) (m : Month) (d hr mi s : Int) : Int :=
  86400 * (daysBeforeYear y + monthsBefore m (is_leap y) + (d - 1) - 719162)
    + 3600 * hr + 60 * mi + s

/-- The reference-frame adjustment of §4.4: UTC subtracts nothing, Standard
subtracts the UTC offset, Wall subtracts UTC plus DST offset. -/
def frameAdjustment (ty : TimeType) (utc_offset dst_offset : Int) : Int :=
  match ty with
  | .UTC => 0
  | .Standard => utc_offset
  | .Wall => utc_offset + dst_offset

/-- Hour, minute and second components of a `TimeSpec`, absent parts zero. -/
def timeParts : TimeSpec → Int × Int × Int
  | .Zero => (0, 0, 0)
  | .Hours h => (h, 0, 0)
  | .HoursMinutes h m => (h, m, 0)
  | .HoursMinutesSeconds h m s => (h, m, s)

/-- Arithmetic reading of `is_leap`: the Gregorian rule in residue form
(`16 ∣ y` replaces `400 ∣ y` because `4 ∣ y` is already known; see
`is_leap_gregorian`). -/
theorem is_leap_residues (y : Int) :
    is_leap y = true ↔ (y % 4 = 0 ∧ (y % 25 ≠ 0 ∨ y % 16 = 0)) := by
  simp [is_leap]

/-- The `is_leap` test is exactly the Gregorian rule. -/
theorem is_leap_gregorian (y : Int) :
    is_leap y = true ↔ ((4 : Int) ∣ y ∧ (¬(100 : Int) ∣ y ∨ (400 : Int) ∣ y)) := by
  rw [is_leap_residues]
  omega

/-- Relation between floor quotients of consecutive integers, divisor 4. -/
theorem div4_bridge (y : Int) : y / 4 = (y - 1) / 4 + (if (4 : Int) ∣ y then 1 else 0) := by
  split <;> omega

/-- Relation between floor quotients of consecutive integers, divisor 100. -/
theorem div100_bridge (y : Int) :
    y / 100 = (y - 1) / 100 + (if (100 : Int) ∣ y then 1 else 0) := by
  split <;> omega

/-- Relation between floor quotients of consecutive integers, divisor 400. -/
theorem div400_bridge (y : Int) :
    y / 400 = (y - 1) / 400 + (if (400 : Int) ∣ y then 1 else 0) := by
  split <;> omega

/-- A checked `i64` addition inside the range is the plain sum. -/
theorem chkAdd_in (a b : Int) (h1 : -9223372036854775808 ≤ a + b)
    (h2 : a + b ≤ 9223372036854775807) : chkAdd a b = some (a + b) := by
  unfold chkAdd
  rw [if_pos ⟨h1, h2⟩]

/-- A checked `i64` subtraction inside the range is the plain difference. -/
theorem chkSub_in (a b : Int) (h1 : -9223372036854775808 ≤ a - b)
    (h2 : a - b ≤ 9223372036854775807) : chkSub a b = some (a - b) := by
  unfold chkSub
  rw [if_pos ⟨h1, h2⟩]

/-- Core congruence for January and February: the Zeller sum over `y - 1`
agrees modulo 7 with the day count, whose month offset `MB` satisfies
`MB ≡ T (mod 7)`. -/
theorem zeller_low (y d T MB : Int) (hy : 1 ≤ y) (hd : 1 ≤ d) (hT : 0 ≤ T)
    (hMB : (MB - T) % 7 = 0) :
    (y - 1 + (y - 1) / 4 - (y - 1) / 100 + (y - 1) / 400 + T + d) % 7
      = (daysBeforeYear y + MB + (d - 1) + 1) % 7 := by
  unfold daysBeforeYear
  omega

/-- Core congruence for March through December: the Zeller sum over `y`
agrees modulo 7 with the day count; the month offset is `MBn` in common
years and `MBl = MBn + 1` in leap years, and `MBn ≡ T + 1 (mod 7)`. -/
theorem zeller_high (y d T MBn MBl : Int) (hy : 1 ≤ y) (hd : 1 ≤ d) (hT : 0 ≤ T)
    (hMBl : MBl = MBn + 1) (hMB : (MBn - T - 1) % 7 = 0) :
    (y + y / 4 - y / 100 + y / 400 + T + d) % 7
      = (daysBeforeYear y + (if is_leap y then MBl else MBn) + (d - 1) + 1) % 7 := by
  have b4 := div4_bridge y
  have b100 := div100_bridge y
  have b400 := div400_bridge y
  rcases h : is_leap y with _ | _
  · have hr : ¬(y % 4 = 0 ∧ (y % 25 ≠ 0 ∨ y % 16 = 0)) := by
      rw [← is_leap_residues]
      simp [h]
    rw [if_neg (by simp)]
    unfold daysBeforeYear
    split at b4 <;> split at b100 <;> split at b400 <;> omega
  · have hr := (is_leap_residues y).mp h
    rw [if_pos rfl]
    unfold daysBeforeYear
    split at b4 <;> split at b100 <;> split at b400 <;> omega

/-- The residue match of `Weekday::calculate` returns the weekday named by
any residue in 0..=6. -/
theorem weekdayFromRem_eq (r : Int) (h0 : 0 ≤ r) (h7 : r < 7) :
    weekdayFromRem r = some (numToWeekday r) := by
  unfold weekdayFromRem numToWeekday
  have : r = 0 ∨ r = 1 ∨ r = 2 ∨ r = 3 ∨ r = 4 ∨ r = 5 ∨ r = 6 := by omega
  rcases this with h | h | h | h | h | h | h <;> subst h <;> rfl

/-- Assembly of the congruence for January and February.  The year bound
keeps every checked `i64` addition of the Zeller sum inside the range. -/
theorem calc_month_low (y d T MB : Int) (m : Month) (hy : 1 ≤ y)
    (hy2 : y ≤ 4611686018427387904) (hd : 1 ≤ d) (hd2 : d ≤ 31)
    (hm : monthNum m < 3) (ht : zellerTable.getD (monthNum m - 1).toNat 0 = T)
    (hmb : monthsBefore m (is_leap y) = MB) (hT : 0 ≤ T) (hT6 : T ≤ 6)
    (hMB : (MB - T) % 7 = 0) :
    Weekday.calculate y m d = some (isoWeekday y m d) := by
  have h0 : (0 : Int) ≤ y - 1 := by omega
  unfold Weekday.calculate isoWeekday isoWeekdayNum
  dsimp only
  rw [if_pos hm, ht, hmb]
  rw [chkSub_in y 1 (by omega) (by omega)]
  dsimp only [Option.bind]
  rw [Int.tdiv_eq_ediv h0 (by norm_num), Int.tdiv_eq_ediv h0 (by norm_num),
    Int.tdiv_eq_ediv h0 (by norm_num)]
  rw [chkAdd_in (y - 1) ((y - 1) / 4) (by omega) (by omega)]
  dsimp only [Option.bind]
  rw [chkSub_in (y - 1 + (y - 1) / 4) ((y - 1) / 100) (by omega) (by omega)]
  dsimp only [Option.bind]
  rw [chkAdd_in (y - 1 + (y - 1) / 4 - (y - 1) / 100) ((y - 1) / 400)
    (by omega) (by omega)]
  dsimp only [Option.bind]
  rw [chkAdd_in (y - 1 + (y - 1) / 4 - (y - 1) / 100 + (y - 1) / 400) T
    (by omega) (by omega)]
  dsimp only [Option.bind]
  rw [chkAdd_in (y - 1 + (y - 1) / 4 - (y - 1) / 100 + (y - 1) / 400 + T) d
    (by omega) (by omega)]
  dsimp only [Option.bind]
  rw [Int.tmod_eq_emod (by omega) (by norm_num)]
  rw [zeller_low y d T MB hy hd hT hMB]
  exact weekdayFromRem_eq _ (Int.emod_nonneg _ (by norm_num))
    (Int.emod_lt_of_pos _ (by norm_num))

/-- Assembly of the congruence for March through December.  The year bound
keeps every checked `i64` addition of the Zeller sum inside the range. -/
theorem calc_month_high (y d T MBn MBl : Int) (m : Month) (hy : 1 ≤ y)
    (hy2 : y ≤ 4611686018427387904) (hd : 1 ≤ d) (hd2 : d ≤ 31)
    (hm : ¬monthNum m < 3) (ht : zellerTable.getD (monthNum m - 1).toNat 0 = T)
    (hmb : monthsBefore m (is_leap y) = if is_leap y then MBl else MBn) (hT : 0 ≤ T)
    (hT6 : T ≤ 6) (hMBl : MBl = MBn + 1) (hMB : (MBn - T - 1) % 7 = 0) :
    Weekday.calculate y m d = some (isoWeekday y m d) := by
  have h0 : (0 : Int) ≤ y := by omega
  unfold Weekday.calculate isoWeekday isoWeekdayNum
  dsimp only
  rw [if_neg hm, ht, hmb]
  dsimp only [Option.bind]
  rw [Int.tdiv_eq_ediv h0 (by norm_num), Int.tdiv_eq_ediv h0 (by norm_num),
    Int.tdiv_eq_ediv h0 (by norm_num)]
  rw [chkAdd_in y (y / 4) (by omega) (by omega)]
  dsimp only [Option.bind]
  rw [chkSub_in (y + y / 4) (y / 100) (by omega) (by omega)]
  dsimp only [Option.bind]
  rw [chkAdd_in (y + y / 4 - y / 100) (y / 400) (by omega) (by omega)]
  dsimp only [Option.bind]
  rw [chkAdd_in (y + y / 4 - y / 100 + y / 400) T (by omega) (by omega)]
  dsimp only [Option.bind]
  rw [chkAdd_in (y + y / 4 - y / 100 + y / 400 + T) d (by omega) (by omega)]
  dsimp only [Option.bind]
  rw [Int.tmod_eq_emod (by omega) (by norm_num)]
  rw [zeller_high y d T MBn MBl hy hd hT hMBl hMB]
  exact weekdayFromRem_eq _ (Int.emod_nonneg _ (by norm_num))
    (Int.emod_lt_of_pos _ (by norm_num))

/-- For years between 1 and 2^62 and days between 1 and 31,
`Weekday::calculate` returns the ISO weekday of the proleptic-Gregorian
date (the checked Zeller sum stays inside `i64` on this domain). -/
theorem calculate_eq_iso (y : Int) (m : Month) (d : Int) (hy : 1 ≤ y)
    (hy2 : y ≤ 4611686018427387904) (hd : 1 ≤ d) (hd2 : d ≤ 31) :
    Weekday.calculate y m d = some (isoWeekday y m d) := by
  cases m
  case January =>
    exact calc_month_low y d 0 0 _ hy hy2 hd hd2 (by decide) (by decide) rfl
      (by norm_num) (by norm_num) (by norm_num)
  case February =>
    exact calc_month_low y d 3 31 _ hy hy2 hd hd2 (by decide) (by decide) rfl
      (by norm_num) (by norm_num) (by norm_num)
  case March =>
    exact calc_month_high y d 2 59 60 _ hy hy2 hd hd2 (by decide) (by decide) rfl
      (by norm_num) (by norm_num) (by norm_num) (by norm_num)
  case April =>
    exact calc_month_high y d 5 90 91 _ hy hy2 hd hd2 (by decide) (by decide) rfl
      (by norm_num) (by norm_num) (by norm_num) (by norm_num)
  case May =>
    exact calc_month_high y d 0 120 121 _ hy hy2 hd hd2 (by decide) (by decide) rfl
      (by norm_num) (by norm_num) (by norm_num) (by norm_num)
  case June =>
    exact calc_month_high y d 3 151 152 _ hy hy2 hd hd2 (by decide) (by decide) rfl
      (by norm_num) (by norm_num) (by norm_num) (by norm_num)
  case July =>
    exact calc_month_high y d 5 181 182 _ hy hy2 hd hd2 (by decide) (by decide) rfl
      (by norm_num) (by norm_num) (by norm_num) (by norm_num)
  case August =>
    exact calc_month_high y d 1 212 213 _ hy hy2 hd hd2 (by decide) (by decide) rfl
      (by norm_num) (by norm_num) (by norm_num) (by norm_num)
  case September =>
    exact calc_month_high y d 4 243 244 _ hy hy2 hd hd2 (by decide) (by decide) rfl
      (by norm_num) (by norm_num) (by norm_num) (by norm_num)
  case October =>
    exact calc_month_high y d 6 273 274 _ hy hy2 hd hd2 (by decide) (by decide) rfl
      (by norm_num) (by norm_num) (by norm_num) (by norm_num)
  case November =>
    exact calc_month_high y d 2 304 305 _ hy hy2 hd hd2 (by decide) (by decide) rfl
      (by norm_num) (by norm_num) (by norm_num) (by norm_num)
  case December =>
    exact calc_month_high y d 4 334 335 _ hy hy2 hd hd2 (by decide) (by decide) rfl
      (by norm_num) (by norm_num) (by norm_num) (by norm_num)

/-- Each year adds 366 days when leap, 365 otherwise, to the prefix day
count. -/
theorem daysBeforeYear_succ (y : Int) :
    daysBeforeYear (y + 1) = daysBeforeYear y + (if is_leap y then 366 else 365) := by
  have b4 := div4_bridge y
  have b100 := div100_bridge y
  have b400 := div400_bridge y
  rcases h : is_leap y with _ | _
  · have hr : ¬(y % 4 = 0 ∧ (y % 25 ≠ 0 ∨ y % 16 = 0)) := by
      rw [← is_leap_residues]
      simp [h]
    rw [if_neg (by simp)]
    unfold daysBeforeYear
    split at b4 <;> split at b100 <;> split at b400 <;> omega
  · have hr := (is_leap_residues y).mp h
    rw [if_pos rfl]
    unfold daysBeforeYear
    split at b4 <;> split at b100 <;> split at b400 <;> omega

/-- One year of seconds is 86400 times the day-count difference between
consecutive years. -/
theorem seconds_in_year_eq (y : Int) :
    seconds_in_year y = 86400 * (daysBeforeYear (y + 1) - daysBeforeYear y) := by
  rw [daysBeforeYear_succ]
  unfold seconds_in_year
  rcases is_leap y with _ | _ <;> norm_num

/-- Consecutive prefix day counts differ by 365 or 366. -/
theorem daysBeforeYear_step (y : Int) :
    daysBeforeYear y + 365 ≤ daysBeforeYear (y + 1) ∧
      daysBeforeYear (y + 1) ≤ daysBeforeYear y + 366 := by
  have h := daysBeforeYear_succ y
  rcases hl : is_leap y with _ | _ <;> rw [hl] at h <;> simp at h <;> omega

/-- The day count of a span of years is between 0 and 366 per year. -/
theorem daysBeforeYear_span (n : Nat) : ∀ s : Int,
    0 ≤ daysBeforeYear (s + n) - daysBeforeYear s ∧
      daysBeforeYear (s + n) - daysBeforeYear s ≤ 366 * n := by
  induction n with
  | zero =>
    intro s
    simp
  | succ n ih =>
    intro s
    have h1 := daysBeforeYear_step s
    have h2 := ih (s + 1)
    have hc : s + ((n + 1 : Nat) : Int) = s + 1 + (n : Int) := by push_cast; ring
    rw [hc]
    push_cast
    omega

/-- The checked year-range sum telescopes into the day-count difference
whenever the total fits in `i64` (the summands are positive, so every
partial sum is bounded by the total). -/
theorem sum_seconds_eq (n : Nat) : ∀ s : Int,
    86400 * (daysBeforeYear (s + n) - daysBeforeYear s) ≤ 9223372036854775807 →
    sum_seconds s n = some (86400 * (daysBeforeYear (s + n) - daysBeforeYear s)) := by
  induction n with
  | zero =>
    intro s _
    simp [sum_seconds]
  | succ n ih =>
    intro s h
    have h1 := daysBeforeYear_step s
    have h2 := daysBeforeYear_span n (s + 1)
    have hc : s + ((n + 1 : Nat) : Int) = s + 1 + (n : Int) := by push_cast; ring
    rw [hc] at h ⊢
    rw [sum_seconds, ih (s + 1) (by omega)]
    dsimp only [Option.bind]
    rw [seconds_in_year_eq]
    rw [chkAdd_in _ _ (by omega) (by omega)]
    congr 1
    ring

/-- The epoch-relative second count of a year start is 86400 times its
epoch-relative day count whenever that second count fits in `i64` (valid
on both sides of 1970). -/
theorem seconds_until_start_of_year_eq (y : Int)
    (hup : 86400 * (daysBeforeYear y - daysBeforeYear 1970) ≤ 9223372036854775807)
    (hlo : -9223372036854775807 ≤ 86400 * (daysBeforeYear y - daysBeforeYear 1970)) :
    seconds_until_start_of_year y
      = some (86400 * (daysBeforeYear y - daysBeforeYear 1970)) := by
  unfold seconds_until_start_of_year
  split
  · have hc : (1970 : Int) + ((y - 1970).toNat : Int) = y := by omega
    have h := sum_seconds_eq (y - 1970).toNat 1970 (by rw [hc]; exact hup)
    rw [hc] at h
    exact h
  · have hc : y + ((1970 - y).toNat : Int) = 1970 := by omega
    have hspan := daysBeforeYear_span (1970 - y).toNat y
    rw [hc] at hspan
    have h := sum_seconds_eq (1970 - y).toNat y (by rw [hc]; omega)
    rw [hc] at h
    rw [h]
    dsimp only [Option.bind]
    rw [chkSub_in 0 (86400 * (daysBeforeYear 1970 - daysBeforeYear y))
      (by omega) (by omega)]
    congr 1
    ring

/-- The prefix day count of the epoch year. -/
theorem daysBeforeYear_epoch : daysBeforeYear 1970 = 719162 := by decide

/-- The leap-aware month tables of `time_to_timestamp` agree with the
reference month offsets. -/
theorem months_table_eq (m : Month) (y : Int) :
    (if is_leap y then MONTHS_LEAP.getD (monthNum m - 1).toNat 0
     else MONTHS_NON_LEAP.getD (monthNum m - 1).toNat 0) = monthsBefore m (is_leap y) := by
  rcases is_leap y with _ | _ <;> cases m <;> rfl

/-- Bounds of the reference month offsets. -/
theorem monthsBefore_bounds (m : Month) (l : Bool) :
    0 ≤ monthsBefore m l ∧ monthsBefore m l ≤ 335 := by
  cases l <;> cases m <;> decide

/-- Unfolding of the reference civil timestamp (for arithmetic bounds). -/
theorem specCivil_expand (y : Int) (m : Month) (d hr mi s : Int) :
    specCivilTimestamp y m d hr mi s
      = 86400 * (daysBeforeYear y + monthsBefore m (is_leap y) + (d - 1) - 719162)
        + 3600 * hr + 60 * mi + s := rfl

/-- Unfolding of the rata-die prefix count (for arithmetic bounds). -/
theorem daysBeforeYear_expand (y : Int) :
    daysBeforeYear y = 365 * (y - 1) + (y - 1) / 4 - (y - 1) / 100 + (y - 1) / 400 := rfl

/-- The `time_to_timestamp` helper computes the reference civil timestamp;
the year and component bounds keep every checked `i64` addition inside the
range (the component bounds are the `i8` ranges of the source's
arguments). -/
theorem time_to_timestamp_eq (y : Int) (m : Month) (d hr mi s : Int)
    (hy1 : -1000000 ≤ y) (hy2 : y ≤ 1000000) (hd1 : -128 ≤ d) (hd2 : d ≤ 127)
    (hh1 : -128 ≤ hr) (hh2 : hr ≤ 127) (hm1 : -128 ≤ mi) (hm2 : mi ≤ 127)
    (hs1 : -128 ≤ s) (hs2 : s ≤ 127) :
    time_to_timestamp y (monthNum m) d hr mi s
      = some (specCivilTimestamp y m d hr mi s) := by
  have hD := daysBeforeYear_expand y
  have hE := daysBeforeYear_epoch
  have hMB := monthsBefore_bounds m (is_leap y)
  unfold time_to_timestamp
  rw [seconds_until_start_of_year_eq y (by omega) (by omega)]
  rw [hE]
  dsimp only [Option.bind]
  rw [months_table_eq]
  rw [chkAdd_in _ _ (by omega) (by omega)]
  dsimp only [Option.bind]
  rw [chkAdd_in _ _ (by omega) (by omega)]
  dsimp only [Option.bind]
  rw [chkAdd_in _ _ (by omega) (by omega)]
  dsimp only [Option.bind]
  rw [chkAdd_in _ _ (by omega) (by omega)]
  dsimp only [Option.bind]
  rw [chkAdd_in _ _ (by omega) (by omega)]
  rw [specCivil_expand]
  congr 1
  ring

/-- The frame-adjustment tail shared by the `to_timestamp` arms: the
checked `utc + dst` sum (where the frame demands it) followed by the
checked subtraction from an in-range timestamp value. -/
theorem adjSub (v utc dst : Int) (ty : TimeType)
    (hv1 : -4611686018427387904 ≤ v) (hv2 : v ≤ 4611686018427387904)
    (hu1 : -1000000000 ≤ utc) (hu2 : utc ≤ 1000000000)
    (hw1 : -1000000000 ≤ dst) (hw2 : dst ≤ 1000000000) :
    (((match ty with
       | TimeType.UTC => some 0
       | TimeType.Standard => some utc
       | TimeType.Wall => chkAdd utc dst) : Option Int).bind fun adj =>
      chkSub v adj)
      = some (v - frameAdjustment ty utc dst) := by
  cases ty
  · rw [chkAdd_in utc dst (by omega) (by omega)]
    dsimp only [Option.bind, frameAdjustment]
    rw [chkSub_in v (utc + dst) (by omega) (by omega)]
  · dsimp only [Option.bind, frameAdjustment]
    rw [chkSub_in v utc (by omega) (by omega)]
  · dsimp only [Option.bind, frameAdjustment]
    rw [chkSub_in v 0 (by omega) (by omega)]

/-- `to_timestamp` on `UntilYear`, for in-range year and offsets. -/
theorem untilYear_eq (y utc dst : Int) (hy1 : -1000000 ≤ y) (hy2 : y ≤ 1000000)
    (hu1 : -1000000000 ≤ utc) (hu2 : utc ≤ 1000000000)
    (hw1 : -1000000000 ≤ dst) (hw2 : dst ≤ 1000000000) :
    ChangeTime.to_timestamp (.UntilYear (.Number y)) utc dst
      = some (specCivilTimestamp y .January 1 0 0 0 - (utc + dst)) := by
  have hD := daysBeforeYear_expand y
  have hS := specCivil_expand y .January 1 0 0 0
  have hMB := monthsBefore_bounds .January (is_leap y)
  have h := time_to_timestamp_eq y .January 1 0 0 0 hy1 hy2 (by norm_num) (by norm_num)
    (by norm_num) (by norm_num) (by norm_num) (by norm_num) (by norm_num) (by norm_num)
  rw [show monthNum Month.January = 1 from rfl] at h
  simp only [ChangeTime.to_timestamp]
  rw [h]
  dsimp only [Option.bind]
  rw [chkAdd_in utc dst (by omega) (by omega)]
  dsimp only [Option.bind]
  rw [chkSub_in (specCivilTimestamp y .January 1 0 0 0) (utc + dst)
    (by omega) (by omega)]

/-- `to_timestamp` on `UntilMonth`, for in-range year and offsets. -/
theorem untilMonth_eq (y utc dst : Int) (m : Month)
    (hy1 : -1000000 ≤ y) (hy2 : y ≤ 1000000)
    (hu1 : -1000000000 ≤ utc) (hu2 : utc ≤ 1000000000)
    (hw1 : -1000000000 ≤ dst) (hw2 : dst ≤ 1000000000) :
    ChangeTime.to_timestamp (.UntilMonth (.Number y) m) utc dst
      = some (specCivilTimestamp y m 1 0 0 0 - (utc + dst)) := by
  have hD := daysBeforeYear_expand y
  have hS := specCivil_expand y m 1 0 0 0
  have hMB := monthsBefore_bounds m (is_leap y)
  have h := time_to_timestamp_eq y m 1 0 0 0 hy1 hy2 (by norm_num) (by norm_num)
    (by norm_num) (by norm_num) (by norm_num) (by norm_num) (by norm_num) (by norm_num)
  simp only [ChangeTime.to_timestamp]
  rw [h]
  dsimp only [Option.bind]
  rw [chkAdd_in utc dst (by omega) (by omega)]
  dsimp only [Option.bind]
  rw [chkSub_in (specCivilTimestamp y m 1 0 0 0) (utc + dst) (by omega) (by omega)]

/-- `to_timestamp` on `UntilDay`, for in-range year and offsets and a day
resolution inside the `i8` range. -/
theorem untilDay_eq (y utc dst : Int) (m m2 : Month) (ds : DaySpec) (d : Int)
    (hy1 : -1000000 ≤ y) (hy2 : y ≤ 1000000)
    (hu1 : -1000000000 ≤ utc) (hu2 : utc ≤ 1000000000)
    (hw1 : -1000000000 ≤ dst) (hw2 : dst ≤ 1000000000)
    (hd1 : -128 ≤ d) (hd2 : d ≤ 127)
    (hcd : ds.to_concrete_day y m = some (m2, d)) :
    ChangeTime.to_timestamp (.UntilDay (.Number y) m ds) utc dst
      = some (specCivilTimestamp y m2 d 0 0 0 - (utc + dst)) := by
  have hD := daysBeforeYear_expand y
  have hS := specCivil_expand y m2 d 0 0 0
  have hMB := monthsBefore_bounds m2 (is_leap y)
  have h := time_to_timestamp_eq y m2 d 0 0 0 hy1 hy2 hd1 hd2 (by norm_num)
    (by norm_num) (by norm_num) (by norm_num) (by norm_num) (by norm_num)
  simp only [ChangeTime.to_timestamp, hcd]
  dsimp only [Option.bind]
  rw [h]
  dsimp only [Option.bind]
  rw [chkAdd_in utc dst (by omega) (by omega)]
  dsimp only [Option.bind]
  rw [chkSub_in (specCivilTimestamp y m2 d 0 0 0) (utc + dst) (by omega) (by omega)]

/-- `to_timestamp` on `UntilTime`, for in-range year and offsets, a day
resolution inside the `i8` range, and `i8`-range time components. -/
theorem untilTime_eq (y utc dst : Int) (m m2 : Month) (ds : DaySpec) (d : Int)
    (t : TimeSpecAndType) (hy1 : -1000000 ≤ y) (hy2 : y ≤ 1000000)
    (hu1 : -1000000000 ≤ utc) (hu2 : utc ≤ 1000000000)
    (hw1 : -1000000000 ≤ dst) (hw2 : dst ≤ 1000000000)
    (hd1 : -128 ≤ d) (hd2 : d ≤ 127)
    (hh1 : -128 ≤ (timeParts t.fst).1) (hh2 : (timeParts t.fst).1 ≤ 127)
    (hm1 : -128 ≤ (timeParts t.fst).2.1) (hm2 : (timeParts t.fst).2.1 ≤ 127)
    (hs1 : -128 ≤ (timeParts t.fst).2.2) (hs2 : (timeParts t.fst).2.2 ≤ 127)
    (hcd : ds.to_concrete_day y m = some (m2, d)) :
    ChangeTime.to_timestamp (.UntilTime (.Number y) m ds t) utc dst
      = some (specCivilTimestamp y m2 d (timeParts t.fst).1 (timeParts t.fst).2.1
          (timeParts t.fst).2.2 - frameAdjustment t.snd utc dst) := by
  obtain ⟨ts, ty⟩ := t
  have hD := daysBeforeYear_expand y
  have hMB := monthsBefore_bounds m2 (is_leap y)
  cases ts
  · rename_i hv
    simp only [timeParts] at hh1 hh2 hm1 hm2 hs1 hs2 ⊢
    have hS := specCivil_expand y m2 d hv 0 0
    simp only [ChangeTime.to_timestamp, hcd]
    dsimp only [Option.bind]
    rw [time_to_timestamp_eq y m2 d hv 0 0 hy1 hy2 hd1 hd2 hh1 hh2 (by norm_num)
      (by norm_num) (by norm_num) (by norm_num)]
    dsimp only [Option.bind]
    exact adjSub (specCivilTimestamp y m2 d hv 0 0) utc dst ty (by omega) (by omega)
      hu1 hu2 hw1 hw2
  · rename_i hv mv
    simp only [timeParts] at hh1 hh2 hm1 hm2 hs1 hs2 ⊢
    have hS := specCivil_expand y m2 d hv mv 0
    simp only [ChangeTime.to_timestamp, hcd]
    dsimp only [Option.bind]
    rw [time_to_timestamp_eq y m2 d hv mv 0 hy1 hy2 hd1 hd2 hh1 hh2 hm1 hm2
      (by norm_num) (by norm_num)]
    dsimp only [Option.bind]
    exact adjSub (specCivilTimestamp y m2 d hv mv 0) utc dst ty (by omega) (by omega)
      hu1 hu2 hw1 hw2
  · rename_i hv mv sv
    simp only [timeParts] at hh1 hh2 hm1 hm2 hs1 hs2 ⊢
    have hS := specCivil_expand y m2 d hv mv sv
    simp only [ChangeTime.to_timestamp, hcd]
    dsimp only [Option.bind]
    rw [time_to_timestamp_eq y m2 d hv mv sv hy1 hy2 hd1 hd2 hh1 hh2 hm1 hm2 hs1 hs2]
    dsimp only [Option.bind]
    exact adjSub (specCivilTimestamp y m2 d hv mv sv) utc dst ty (by omega) (by omega)
      hu1 hu2 hw1 hw2
  · simp only [timeParts] at hh1 hh2 hm1 hm2 hs1 hs2 ⊢
    have hS := specCivil_expand y m2 d 0 0 0
    simp only [ChangeTime.to_timestamp, hcd]
    dsimp only [Option.bind]
    rw [time_to_timestamp_eq y m2 d 0 0 0 hy1 hy2 hd1 hd2 (by norm_num) (by norm_num)
      (by norm_num) (by norm_num) (by norm_num) (by norm_num)]
    dsimp only [Option.bind]
    exact adjSub (specCivilTimestamp y m2 d 0 0 0) utc dst ty (by omega) (by omega)
      hu1 hu2 hw1 hw2

/-- An if-then-else never panics when neither branch does. -/
theorem ite_ne_crash {α : Type} {c : Prop} [Decidable c] {a b : PRes α}
    (ha : a ≠ .crash) (hb : b ≠ .crash) : (if c then a else b) ≠ .crash := by
  split <;> assumption

/-- Sequencing never panics when neither stage does. -/
theorem then_ne_crash {α β : Type} (r : PRes α) (f : α → PRes β) (hr : r ≠ .crash)
    (hf : ∀ a, f a ≠ .crash) : r.then f ≠ .crash := by
  cases r <;> simp_all [PRes.then]

/-- Inversion: a panic of a sequence comes from one of its stages. -/
theorem then_eq_crash {α β : Type} (r : PRes α) (f : α → PRes β) :
    r.then f = .crash ↔ r = .crash ∨ ∃ a, r = .ok a ∧ f a = .crash := by
  cases r <;> simp [PRes.then]

/-- Inversion: a successful sequence has a successful first stage. -/
theorem then_eq_ok {α β : Type} (r : PRes α) (f : α → PRes β) (b : β) :
    r.then f = .ok b ↔ ∃ a, r = .ok a ∧ f a = .ok b := by
  cases r <;> simp [PRes.then]

/-- Mapping never panics when the argument does not. -/
theorem map_ne_crash {α β : Type} (f : α → β) (r : PRes α) (h : r ≠ .crash) :
    r.map f ≠ .crash := by
  cases r <;> simp_all [PRes.map]

/-- Inversion of a successful map. -/
theorem map_eq_ok {α β : Type} (f : α → β) (r : PRes α) (b : β) :
    r.map f = .ok b ↔ ∃ a, r = .ok a ∧ f a = b := by
  cases r <;> simp [PRes.map]

/-- Weekday names are matched by a plain conditional chain: parsing never
panics. -/
theorem weekday_from_str_ne_crash (s : List Char) : Weekday.from_str s ≠ .crash := by
  unfold Weekday.from_str
  dsimp only
  repeat' apply ite_ne_crash
  all_goals simp

/-- Month names are matched by a plain conditional chain: parsing never
panics. -/
theorem month_from_str_ne_crash (s : List Char) : Month.from_str s ≠ .crash := by
  unfold Month.from_str
  dsimp only
  repeat' apply ite_ne_crash
  all_goals simp

/-- Year parsing handles its fallible integer parse: it never panics. -/
theorem year_from_str_ne_crash (s : List Char) : Year.from_str s ≠ .crash := by
  unfold Year.from_str
  dsimp only
  apply ite_ne_crash
  · simp
  apply ite_ne_crash
  · simp
  cases parseI64 (lowerStr s) <;> simp

/-- The `TimeSpec` fold reports every bad part: it never panics. -/
theorem tsFold_ne_crash (parts : List (List Char)) : ∀ (orig : List Char) (neg : Int)
    (st : TimeSpec), tsFold orig neg st parts ≠ .crash := by
  induction parts with
  | nil =>
    intro orig neg st
    simp [tsFold]
  | cons p rest ih =>
    intro orig neg st
    cases st <;> simp only [tsFold]
    case Zero =>
      cases hp : parseI8 p
      · simp [hp]
      · simp only [hp]
        exact ih orig neg _
    case Hours h =>
      by_cases hl : p.length = 2
      · simp only [if_pos hl]
        cases hp : parseI8 p
        · simp [hp]
        · simp only [hp]
          exact ih orig neg _
      · simp [if_neg hl]
    case HoursMinutes h m =>
      by_cases hl : p.length = 2
      · simp only [if_pos hl]
        cases hp : parseI8 p
        · simp [hp]
        · simp only [hp]
          exact ih orig neg _
      · simp [if_neg hl]
    case HoursMinutesSeconds h m sec => simp

/-- `TimeSpec::from_str` never panics. -/
theorem timespec_from_str_ne_crash (s : List Char) : TimeSpec.from_str s ≠ .crash := by
  unfold TimeSpec.from_str
  apply ite_ne_crash
  · simp
  · exact tsFold_ne_crash _ _ _ _

/-- `TimeSpecAndType::from_str` never panics. -/
theorem timespecandtype_from_str_ne_crash (s : List Char) :
    TimeSpecAndType.from_str s ≠ .crash := by
  unfold TimeSpecAndType.from_str
  dsimp only
  apply ite_ne_crash
  · simp
  apply ite_ne_crash
  · exact then_ne_crash _ _ (timespec_from_str_ne_crash _) (fun a => by simp)
  · exact then_ne_crash _ _ (timespec_from_str_ne_crash _) (fun a => by simp)

/-- `Saving::from_str` never panics. -/
theorem saving_from_str_ne_crash (s : List Char) : Saving.from_str s ≠ .crash := by
  unfold Saving.from_str
  apply ite_ne_crash
  · simp
  apply ite_ne_crash
  · simp
  cases ht : TimeSpec.from_str s
  · simp [ht]
  · simp [ht]
  · exact absurd ht (timespec_from_str_ne_crash s)

/-- `DaySpec::from_str` panics exactly on the all-ASCII-digit tokens whose
value does not fit in `i8` (the `parse().unwrap()` of the `Ordinal`
branch); every other input returns a value or a reported error. -/
theorem dayspec_from_str_crash_iff (s : List Char) :
    DaySpec.from_str s = .crash ↔ (s.all Char.isDigit ∧ parseI8 s = none) := by
  unfold DaySpec.from_str
  by_cases hd : s.all Char.isDigit
  · simp only [if_pos hd]
    cases hp : parseI8 s <;> simp [hd, hp]
  · simp only [if_neg hd]
    constructor
    · intro h
      exfalso
      split at h
      · exact absurd h (then_ne_crash _ _ (weekday_from_str_ne_crash _) (fun w => by simp))
      · split at h
        · simp at h
        · rw [then_eq_crash] at h
          rcases h with h | ⟨w, _, hrest⟩
          · exact absurd h (weekday_from_str_ne_crash _)
          · repeat' split at hrest
            all_goals simp at hrest
    · rintro ⟨h1, _⟩
      exact absurd h1 hd

/-- The rule fold panics only if `DaySpec::from_str` panics on one of its
tokens. -/
theorem ruleFold_ne_crash (toks : List (List Char)) : ∀ st : RuleState,
    (∀ t ∈ toks, DaySpec.from_str t ≠ .crash) → ruleFold st toks ≠ .crash := by
  induction toks with
  | nil =>
    intro st _
    simp [ruleFold]
  | cons p rest ih =>
    intro st hts
    have hp : DaySpec.from_str p ≠ .crash := hts p (by simp)
    have hrest : ∀ t ∈ rest, DaySpec.from_str t ≠ .crash := fun t ht => hts t (by simp [ht])
    simp only [ruleFold]
    by_cases hh : startsHash p
    · simp only [if_pos hh]
      exact ih st hrest
    · simp only [if_neg hh]
      cases st
      · exact ite_ne_crash (ih _ hrest) (by simp)
      · exact ih _ hrest
      · exact then_ne_crash _ _ (year_from_str_ne_crash _) (fun y => ih _ hrest)
      · exact ite_ne_crash (ih _ hrest)
          (then_ne_crash _ _ (year_from_str_ne_crash _) (fun y => ih _ hrest))
      · exact ite_ne_crash (ih _ hrest) (by simp)
      · exact then_ne_crash _ _ (month_from_str_ne_crash _) (fun m => ih _ hrest)
      · exact then_ne_crash _ _ hp (fun d => ih _ hrest)
      · exact then_ne_crash _ _ (timespecandtype_from_str_ne_crash _) (fun t => ih _ hrest)
      · exact then_ne_crash _ _ (timespec_from_str_ne_crash _) (fun t => ih _ hrest)
      · simp

/-- Finalising the zone-info fold never panics. -/
theorem zoneInfoFinish_ne_crash (st : ZoneInfoState) : zoneInfoFinish st ≠ .crash := by
  cases st <;> simp [zoneInfoFinish]

/-- The zone-info fold panics only if `DaySpec::from_str` panics on one of
its tokens. -/
theorem zoneInfoFold_ne_crash (toks : List (List Char)) : ∀ st : ZoneInfoState,
    (∀ t ∈ toks, DaySpec.from_str t ≠ .crash) → zoneInfoFold st toks ≠ .crash := by
  induction toks with
  | nil =>
    intro st _
    exact zoneInfoFinish_ne_crash st
  | cons p rest ih =>
    intro st hts
    have hp : DaySpec.from_str p ≠ .crash := hts p (by simp)
    have hrest : ∀ t ∈ rest, DaySpec.from_str t ≠ .crash := fun t ht => hts t (by simp [ht])
    simp only [zoneInfoFold]
    by_cases hh : startsHash p
    · simp only [if_pos hh]
      exact zoneInfoFinish_ne_crash st
    · simp only [if_neg hh]
      cases st
      · exact then_ne_crash _ _ (timespec_from_str_ne_crash _) (fun o => ih _ hrest)
      · exact then_ne_crash _ _ (saving_from_str_ne_crash _) (fun sv => ih _ hrest)
      · exact ih _ hrest
      · exact then_ne_crash _ _ (year_from_str_ne_crash _) (fun y => ih _ hrest)
      · exact then_ne_crash _ _ (month_from_str_ne_crash _) (fun m => ih _ hrest)
      · exact then_ne_crash _ _ hp (fun d => ih _ hrest)
      · exact then_ne_crash _ _ (timespecandtype_from_str_ne_crash _) (fun t => by simp)

/-- `Zone::from_str` panics only if a day token panics. -/
theorem zone_from_str_ne_crash (input : List Char)
    (h : ∀ t ∈ splitWs input, DaySpec.from_str t ≠ .crash) : Zone.from_str input ≠ .crash := by
  intro hc
  unfold Zone.from_str at hc
  cases hs : splitWs input with
  | nil =>
    rw [hs] at hc
    simp at hc
  | cons kw rest =>
    rw [hs] at hc
    dsimp only at hc
    split at hc
    · cases rest with
      | nil => simp at hc
      | cons name rest2 =>
        dsimp only at hc
        exact absurd hc (map_ne_crash _ _ (zoneInfoFold_ne_crash _ _
          (fun t ht => h t (by rw [hs]; simp [ht]))))
    · simp at hc

/-- `Link::from_str` never panics. -/
theorem link_from_str_ne_crash (input : List Char) : Link.from_str input ≠ .crash := by
  unfold Link.from_str
  cases splitWs input with
  | nil => simp
  | cons kw rest =>
    apply ite_ne_crash
    · cases rest with
      | nil => simp
      | cons a rest2 => cases rest2 <;> simp
    · simp

/-- `Line::new` panics only on lines with an all-digit day token that does
not fit in `i8`. -/
theorem line_new_ne_crash (input : List Char)
    (h : ∀ t ∈ splitWs (stripComment input), ¬(t.all Char.isDigit ∧ parseI8 t = none)) :
    Line.new input ≠ .crash := by
  have h' : ∀ t ∈ splitWs (stripComment input), DaySpec.from_str t ≠ .crash := by
    intro t ht hc
    exact h t ht ((dayspec_from_str_crash_iff t).mp hc)
  unfold Line.new
  dsimp only
  apply ite_ne_crash
  · simp
  apply ite_ne_crash
  · exact map_ne_crash _ _ (zone_from_str_ne_crash _ h')
  apply ite_ne_crash
  · exact map_ne_crash _ _ (zoneInfoFold_ne_crash _ _ h')
  apply ite_ne_crash
  · exact map_ne_crash _ _ (ruleFold_ne_crash _ _ h')
  apply ite_ne_crash
  · exact map_ne_crash _ _ (link_from_str_ne_crash _)
  · simp

/-- C2 counterexample: the ON-column parser panics on the token `128` —
all digits, but the value overflows `i8`, so the `Ordinal` branch's
`parse().unwrap()` panics instead of returning a value or a reported
error. -/
theorem C2_counterexample : DaySpec.from_str "128".toList = .crash := by decide

/-- C2 (amended): every field parser other than `DaySpec::from_str`
returns a value or a reported error on every input; `DaySpec::from_str`
panics exactly on all-ASCII-digit tokens whose value does not fit in `i8`,
and `Line::new` (hence every record parser) can only panic through such a
day token.  `Weekday::calculate` returns a value whenever the year is
between 1 and 2^62 and the day between 1 and 31 (for years ≤ 0 it can
panic on a negative remainder, see C1, and near `i64::MAX` the Zeller sum
overflows), and `ChangeTime::to_timestamp` returns a value on
`UntilYear`/`UntilMonth` with a `Number` year within the stated `i64`-safe
bounds but panics on a `Minimum` year. -/
theorem C2_amended :
    (∀ s : List Char, DaySpec.from_str s = .crash ↔ (s.all Char.isDigit ∧ parseI8 s = none))
    ∧ (∀ s : List Char, TimeSpec.from_str s ≠ .crash)
    ∧ (∀ s : List Char, TimeSpecAndType.from_str s ≠ .crash)
    ∧ (∀ s : List Char, Saving.from_str s ≠ .crash)
    ∧ (∀ s : List Char, Year.from_str s ≠ .crash)
    ∧ (∀ s : List Char, Month.from_str s ≠ .crash)
    ∧ (∀ s : List Char, Weekday.from_str s ≠ .crash)
    ∧ (∀ input : List Char,
        (∀ t ∈ splitWs (stripComment input), ¬(t.all Char.isDigit ∧ parseI8 t = none)) →
        Line.new input ≠ .crash)
    ∧ (∀ (y : Int) (m : Month) (d : Int), 1 ≤ y → y ≤ 4611686018427387904 →
        1 ≤ d → d ≤ 31 → (Weekday.calculate y m d).isSome = true)
    ∧ (∀ y utc dst : Int, -1000000 ≤ y → y ≤ 1000000 →
        -1000000000 ≤ utc → utc ≤ 1000000000 → -1000000000 ≤ dst → dst ≤ 1000000000 →
        (ChangeTime.to_timestamp (.UntilYear (.Number y)) utc dst).isSome = true)
    ∧ (∀ (y utc dst : Int) (m : Month), -1000000 ≤ y → y ≤ 1000000 →
        -1000000000 ≤ utc → utc ≤ 1000000000 → -1000000000 ≤ dst → dst ≤ 1000000000 →
        (ChangeTime.to_timestamp (.UntilMonth (.Number y) m) utc dst).isSome = true)
    ∧ (∀ utc dst : Int, ChangeTime.to_timestamp (.UntilYear .Minimum) utc dst = none) :=
  ⟨dayspec_from_str_crash_iff, timespec_from_str_ne_crash,
    timespecandtype_from_str_ne_crash, saving_from_str_ne_crash,
    year_from_str_ne_crash, month_from_str_ne_crash, weekday_from_str_ne_crash,
    line_new_ne_crash,
    fun y m d hy hy2 hd hd2 => by rw [calculate_eq_iso y m d hy hy2 hd hd2]; rfl,
    fun y utc dst h1 h2 h3 h4 h5 h6 => by
      rw [untilYear_eq y utc dst h1 h2 h3 h4 h5 h6]; rfl,
    fun y utc dst m h1 h2 h3 h4 h5 h6 => by
      rw [untilMonth_eq y utc dst m h1 h2 h3 h4 h5 h6]; rfl,
    fun utc dst => rfl⟩

/-- C2 witness: the `Line::new` part applied to a link line, and the
calculate part at 2017-02-11. -/
theorem C2_witness :
    Line.new "Link  Europe/Istanbul  Asia/Istanbul".toList ≠ .crash ∧
      (Weekday.calculate 2017 .February 11).isSome = true :=
  ⟨C2_amended.2.2.2.2.2.2.2.1 "Link  Europe/Istanbul  Asia/Istanbul".toList (by decide),
    C2_amended.2.2.2.2.2.2.2.2.1 2017 .February 11 (by decide) (by norm_num)
      (by decide) (by decide)⟩

/-- C4 counterexample: `Rule::from_str` SKIPS a `#` token and keeps folding
— with the comment token `#x` in the TYPE column position, the tokens after
it are still consumed and the parse succeeds, whereas stopping at `#x`
(what the claim predicts) yields `NotParsedAsRuleLine`; so the tokens after
the first `#` token do influence the result. -/
theorem C4_counterexample :
    Rule.from_str "Rule US 1967 1973 #x - Apr lastSun 2:00 1:00 D".toList
      = .ok ⟨"US".toList, .Number 1967, some (.Number 1973), .April, .Last .Sunday,
          ⟨.HoursMinutes 2 0, .Wall⟩, .HoursMinutes 1 0, some "D".toList⟩
    ∧ Rule.from_str "Rule US 1967 1973 #x".toList = .fail .NotParsedAsRuleLine :=
  ⟨by decide, by decide⟩

/-- C4 (amended): in `ZoneInfo::from_iter` the first token beginning with
`#` ends the fold immediately and the record is finalised from the state
reached at that point; `Rule::from_str` instead SKIPS every token beginning
with `#` and continues the fold with the remaining tokens. -/
theorem C4_amended :
    (∀ (st : ZoneInfoState) (h : List Char) (rest : List (List Char)),
      startsHash h = true → zoneInfoFold st (h :: rest) = zoneInfoFinish st)
    ∧ (∀ (st : RuleState) (h : List Char) (rest : List (List Char)),
      startsHash h = true → ruleFold st (h :: rest) = ruleFold st rest) :=
  ⟨fun st h rest hh => by simp [zoneInfoFold, hh],
    fun st h rest hh => by simp [ruleFold, hh]⟩

/-- C4 witness: both parts applied to the comment token `#x`. -/
theorem C4_witness :
    zoneInfoFold .Start ["#x".toList] = zoneInfoFinish .Start ∧
      ruleFold .Start ["#x".toList, "y".toList] = ruleFold .Start ["y".toList] :=
  ⟨C4_amended.1 .Start "#x".toList [] (by decide),
    C4_amended.2 .Start "#x".toList ["y".toList] (by decide)⟩

/-- A token of digits contains no colon. -/
theorem all_digit_no_colon (s : List Char) (h : s.all Char.isDigit = true) : ':' ∉ s := by
  intro hm
  exact absurd (List.all_eq_true.mp h _ hm) (by decide)

/-- A successful digit parse means a nonempty all-digit token. -/
theorem parseDigits_some (s : List Char) (n : Nat) (h : parseDigits s = some n) :
    s ≠ [] ∧ s.all Char.isDigit = true := by
  unfold parseDigits at h
  split at h
  · simp at h
  · rename_i hne
    split at h
    · rename_i hall
      exact ⟨hne, hall⟩
    · simp at h

/-- The lone hyphen is not a number. -/
theorem parseI8_dash : parseI8 ['-'] = none := by decide

/-- A token that parses as `i8` is nonempty. -/
theorem parseI8_ne_nil (p : List Char) (v : Int) (h : parseI8 p = some v) : p ≠ [] := by
  intro e
  subst e
  simp [parseI8, parseDigits] at h

/-- A token that parses as `i8` contains no colon. -/
theorem parseI8_no_colon (p : List Char) (v : Int) (h : parseI8 p = some v) : ':' ∉ p := by
  unfold parseI8 at h
  split at h
  · rename_i rest
    rcases hb : parseDigits rest with _ | n
    · rw [hb] at h
      simp at h
    · have hnc := all_digit_no_colon rest (parseDigits_some rest n hb).2
      intro hm
      rcases List.mem_cons.mp hm with h1 | h1
      · exact absurd h1 (by decide)
      · exact hnc h1
  · rename_i rest
    rcases hb : parseDigits rest with _ | n
    · rw [hb] at h
      simp at h
    · have hnc := all_digit_no_colon rest (parseDigits_some rest n hb).2
      intro hm
      rcases List.mem_cons.mp hm with h1 | h1
      · exact absurd h1 (by decide)
      · exact hnc h1
  · rcases hb : parseDigits p with _ | n
    · rw [hb] at h
      simp at h
    · exact all_digit_no_colon p (parseDigits_some p n hb).2

/-- Splitting a separator-free token yields that one part. -/
theorem splitOnChar_no_sep (sep : Char) (p : List Char) (hp : sep ∉ p) :
    splitOnChar sep p = [p] := by
  induction p with
  | nil => rfl
  | cons c cs ih =>
    have hc : ¬c = sep := fun e => hp (by simp [e])
    have hcs : sep ∉ cs := fun m => hp (by simp [m])
    simp only [splitOnChar, if_neg hc, ih hcs]

/-- Splitting peels one separator-free part before a separator. -/
theorem splitOnChar_append (sep : Char) (p rest : List Char) (hp : sep ∉ p) :
    splitOnChar sep (p ++ sep :: rest) = p :: splitOnChar sep rest := by
  induction p with
  | nil => simp [splitOnChar]
  | cons c cs ih =>
    have hc : ¬c = sep := fun e => hp (by simp [e])
    have hcs : sep ∉ cs := fun m => hp (by simp [m])
    simp only [List.cons_append, splitOnChar, List.append_eq, if_neg hc, ih hcs]

/-- With enough parts left, the `TimeSpec` fold always reports the token as
invalid: more than three colon-separated segments never parse. -/
theorem tsFold_long_fail (parts : List (List Char)) : ∀ (orig : List Char) (neg : Int)
    (st : TimeSpec),
    (match st with
     | .Zero => 4
     | .Hours _ => 3
     | .HoursMinutes _ _ => 2
     | .HoursMinutesSeconds _ _ _ => 1) ≤ parts.length →
    tsFold orig neg st parts = .fail (.InvalidTimeSpecAndType orig) := by
  induction parts with
  | nil =>
    intro orig neg st hlen
    cases st <;> simp at hlen
  | cons p rest ih =>
    intro orig neg st hlen
    simp only [List.length_cons] at hlen
    cases st <;> (dsimp only at hlen; simp only [tsFold])
    · by_cases hl : p.length = 2
      · simp only [if_pos hl]
        cases hp : parseI8 p
        · simp [hp]
        · simp only [hp]
          exact ih orig neg _ (by show 2 ≤ rest.length; omega)
      · simp [if_neg hl]
    · by_cases hl : p.length = 2
      · simp only [if_pos hl]
        cases hp : parseI8 p
        · simp [hp]
        · simp only [hp]
          exact ih orig neg _ (by show 1 ≤ rest.length; omega)
      · simp [if_neg hl]
    · cases hp : parseI8 p
      · simp [hp]
      · simp only [hp]
        exact ih orig neg _ (by show 3 ≤ rest.length; omega)

/-- C8: `TimeSpec` parsing maps "-" to `Zero`; otherwise the first
colon-separated segment is signed hours, and the second and third segments
must be exactly two characters wide, parse as `i8` minutes and seconds, and
are multiplied by the sign of the leading character; wrong width,
non-numeric segments, and more than three segments all fail; and the
Europe/London zone line parses with
`utc_offset = HoursMinutesSeconds(0, -1, -15)`. -/
theorem C8_timespec :
    TimeSpec.from_str ['-'] = .ok .Zero
    ∧ (∀ (p : List Char) (h : Int), parseI8 p = some h →
        TimeSpec.from_str p = .ok (.Hours h))
    ∧ (∀ (p1 p2 : List Char) (h m : Int), parseI8 p1 = some h → p2.length = 2 →
        parseI8 p2 = some m →
        TimeSpec.from_str (p1 ++ ':' :: p2)
          = .ok (.HoursMinutes h (m * (if p1.head? = some '-' then -1 else 1))))
    ∧ (∀ (p1 p2 p3 : List Char) (h m sec : Int), parseI8 p1 = some h → p2.length = 2 →
        parseI8 p2 = some m → p3.length = 2 → parseI8 p3 = some sec →
        TimeSpec.from_str (p1 ++ ':' :: p2 ++ ':' :: p3)
          = .ok (.HoursMinutesSeconds h (m * (if p1.head? = some '-' then -1 else 1))
              (sec * (if p1.head? = some '-' then -1 else 1))))
    ∧ (∀ input : List Char, 4 ≤ (splitOnChar ':' input).length →
        TimeSpec.from_str input = .fail (.InvalidTimeSpecAndType input))
    ∧ (∀ (p1 p2 : List Char) (h : Int), ':' ∉ p2 → parseI8 p1 = some h → p2.length ≠ 2 →
        TimeSpec.from_str (p1 ++ ':' :: p2)
          = .fail (.InvalidTimeSpecAndType (p1 ++ ':' :: p2)))
    ∧ (∀ (p1 p2 : List Char) (h : Int), ':' ∉ p2 → parseI8 p1 = some h → p2.length = 2 →
        parseI8 p2 = none →
        TimeSpec.from_str (p1 ++ ':' :: p2)
          = .fail (.InvalidTimeSpecAndType (p1 ++ ':' :: p2)))
    ∧ (∀ p : List Char, p ≠ ['-'] → ':' ∉ p → parseI8 p = none →
        TimeSpec.from_str p = .fail (.InvalidTimeSpecAndType p))
    ∧ (∃ z : Zone,
        Line.new "Zone Europe/London -0:01:15 - LMT 1847 Dec 1 0:00s".toList
          = .ok (.Zone z) ∧ z.info.utc_offset = .HoursMinutesSeconds 0 (-1) (-15)) := by
  refine ⟨by decide, ?_, ?_, ?_, ?_, ?_, ?_, ?_, ?_⟩
  · intro p h hp
    have hnc : ':' ∉ p := parseI8_no_colon p h hp
    have hnd : p ≠ ['-'] := by
      intro e
      rw [e, parseI8_dash] at hp
      simp at hp
    unfold TimeSpec.from_str
    rw [if_neg hnd, splitOnChar_no_sep _ _ hnc]
    simp [tsFold, hp]
  · intro p1 p2 h m hp1 hl2 hp2
    have h1 : ':' ∉ p1 := parseI8_no_colon p1 h hp1
    have h2 : ':' ∉ p2 := parseI8_no_colon p2 m hp2
    have hne : p1 ++ ':' :: p2 ≠ ['-'] := by
      intro e
      have hmem : ':' ∈ p1 ++ ':' :: p2 := by simp
      rw [e] at hmem
      simp at hmem
    obtain ⟨c, cs, rfl⟩ : ∃ c cs, p1 = c :: cs := by
      cases p1 with
      | nil => exact absurd rfl (parseI8_ne_nil [] h hp1)
      | cons c cs => exact ⟨c, cs, rfl⟩
    have hsplit : splitOnChar ':' ((c :: cs) ++ ':' :: p2) = (c :: cs) :: [p2] := by
      rw [splitOnChar_append ':' (c :: cs) p2 h1, splitOnChar_no_sep ':' p2 h2]
    have hneg : (if startsWithStr ['-'] ((c :: cs) ++ ':' :: p2) then (-1 : Int) else 1)
        = (if c = '-' then -1 else 1) := by
      by_cases hc : c = '-' <;> simp [List.cons_append, startsWithStr, hc, eq_comm]
    unfold TimeSpec.from_str
    rw [if_neg hne, hsplit, hneg]
    simp [tsFold, hp1, hp2, hl2]
  · intro p1 p2 p3 h m sec hp1 hl2 hp2 hl3 hp3
    have h1 : ':' ∉ p1 := parseI8_no_colon p1 h hp1
    have h2 : ':' ∉ p2 := parseI8_no_colon p2 m hp2
    have h3 : ':' ∉ p3 := parseI8_no_colon p3 sec hp3
    have hne : p1 ++ ':' :: p2 ++ ':' :: p3 ≠ ['-'] := by
      intro e
      have hmem : ':' ∈ p1 ++ ':' :: p2 ++ ':' :: p3 := by simp
      rw [e] at hmem
      simp at hmem
    obtain ⟨c, cs, rfl⟩ : ∃ c cs, p1 = c :: cs := by
      cases p1 with
      | nil => exact absurd rfl (parseI8_ne_nil [] h hp1)
      | cons c cs => exact ⟨c, cs, rfl⟩
    have hsplit : splitOnChar ':' ((c :: cs) ++ ':' :: p2 ++ ':' :: p3)
        = (c :: cs) :: [p2, p3] := by
      rw [show (c :: cs) ++ ':' :: p2 ++ ':' :: p3
            = (c :: cs) ++ ':' :: (p2 ++ ':' :: p3) by simp]
      rw [splitOnChar_append ':' (c :: cs) (p2 ++ ':' :: p3) h1,
        splitOnChar_append ':' p2 p3 h2, splitOnChar_no_sep ':' p3 h3]
    have hneg : (if startsWithStr ['-'] ((c :: cs) ++ ':' :: p2 ++ ':' :: p3) then (-1 : Int)
          else 1)
        = (if c = '-' then -1 else 1) := by
      by_cases hc : c = '-' <;> simp [List.cons_append, startsWithStr, hc, eq_comm]
    unfold TimeSpec.from_str
    rw [if_neg hne, hsplit, hneg]
    simp [tsFold, hp1, hp2, hp3, hl2, hl3]
  · intro input hlen
    have hne : input ≠ ['-'] := by
      intro e
      rw [e] at hlen
      simp [splitOnChar] at hlen
    unfold TimeSpec.from_str
    rw [if_neg hne]
    exact tsFold_long_fail _ _ _ _ hlen
  · intro p1 p2 h h2 hp1 hl2
    have h1 : ':' ∉ p1 := parseI8_no_colon p1 h hp1
    have hne : p1 ++ ':' :: p2 ≠ ['-'] := by
      intro e
      have hmem : ':' ∈ p1 ++ ':' :: p2 := by simp
      rw [e] at hmem
      simp at hmem
    simp [TimeSpec.from_str, hne, splitOnChar_append ':' p1 p2 h1,
      splitOnChar_no_sep ':' p2 h2, tsFold, hp1, hl2]
  · intro p1 p2 h h2 hp1 hl2 hp2
    have h1 : ':' ∉ p1 := parseI8_no_colon p1 h hp1
    have hne : p1 ++ ':' :: p2 ≠ ['-'] := by
      intro e
      have hmem : ':' ∈ p1 ++ ':' :: p2 := by simp
      rw [e] at hmem
      simp at hmem
    simp [TimeSpec.from_str, hne, splitOnChar_append ':' p1 p2 h1,
      splitOnChar_no_sep ':' p2 h2, tsFold, hp1, hl2, hp2]
  · intro p hnd hnc hp
    unfold TimeSpec.from_str
    rw [if_neg hnd, splitOnChar_no_sep _ _ hnc]
    simp [tsFold, hp]
  · exact ⟨⟨"Europe/London".toList,
      ⟨.HoursMinutesSeconds 0 (-1) (-15), .NoSaving, "LMT".toList,
        some (.UntilTime (.Number 1847) .December (.Ordinal 1)
          ⟨.HoursMinutes 0 0, .Standard⟩)⟩⟩, by decide, by decide⟩

/-- C8 witness: the three-segment part applied to the Europe/London offset
token `-0:01:15`. -/
theorem C8_witness :
    TimeSpec.from_str "-0:01:15".toList = .ok (.HoursMinutesSeconds 0 (-1) (-15)) := by
  have h := C8_timespec.2.2.2.1 "-0".toList "01".toList "15".toList 0 1 15
    (by decide) (by decide) (by decide) (by decide) (by decide)
  simpa using h

/-- A nonempty digit token parses as `u8` when its value fits. -/
theorem parseU8_of_digits (ds : List Char) (n : Nat) (hp : parseDigits ds = some n)
    (h255 : n ≤ 255) : parseU8 ds = some n := by
  have hall := (parseDigits_some ds n hp).2
  unfold parseU8
  split
  · rename_i rest
    simp [List.all_cons] at hall
  · rename_i rest
    simp [List.all_cons] at hall
  · rw [hp]
    simp [h255]

/-- C9: a day-spec token `<weekday>>=<n>` or `<weekday><=<n>` whose day
number parses as `u8` but exceeds 127 is ACCEPTED, with the day stored as
the two's-complement `i8` reinterpretation `n - 256` (a negative day),
rather than rejected. -/
theorem C9_dayspec :
    ∀ (w : Weekday) (ds : List Char) (n : Nat), parseDigits ds = some n → 127 < n →
      n ≤ 255 →
      DaySpec.from_str (weekdayShortName w ++ '>' :: '=' :: ds)
        = .ok (.FirstOnOrAfter w ((n : Int) - 256))
      ∧ DaySpec.from_str (weekdayShortName w ++ '<' :: '=' :: ds)
        = .ok (.LastOnOrBefore w ((n : Int) - 256)) := by
  intro w ds n hp h127 h255
  have hu8 := parseU8_of_digits ds n hp h255
  have hn : ¬n ≤ 127 := by omega
  constructor <;> cases w <;>
    simp [weekdayShortName, DaySpec.from_str, byteTake, byteDrop, utf8Len, PRes.then,
      Weekday.from_str, lowerStr, asciiLower, hu8, u8_as_i8, hn]

/-- C9 witness: the theorem applied to the token `Sun>=200`. -/
theorem C9_witness :
    DaySpec.from_str "Sun>=200".toList = .ok (.FirstOnOrAfter .Sunday (-56)) := by
  have h := (C9_dayspec .Sunday ['2', '0', '0'] 200 (by decide) (by decide) (by decide)).1
  simpa using h

/-- Tokenisation of a line starting with a non-whitespace character: the
first token is the maximal non-whitespace run. -/
theorem splitWs_cons_nonws (cs : List Char) : ∀ c : Char, isAsciiWs c = false →
    splitWs (c :: cs)
      = (c :: cs.takeWhile (fun x => !isAsciiWs x))
        :: splitWs (cs.dropWhile (fun x => !isAsciiWs x)) := by
  induction cs with
  | nil =>
    intro c hc
    simp [splitWs, hc]
  | cons d ds ih =>
    intro c hc
    cases hd : isAsciiWs d
    · conv_lhs => rw [splitWs]
      rw [ih d hd]
      simp only [hc, hd, Bool.false_eq_true, if_false, List.takeWhile_cons,
        List.dropWhile_cons, Bool.not_false, if_true]
    · simp only [splitWs, hc, Bool.false_eq_true, if_false, hd,
        List.takeWhile_cons, List.dropWhile_cons, Bool.not_true, if_false, if_true]

/-- A true `startsWithStr` exposes the literal as a list prefix. -/
theorem startsWithStr_eq_append (p : List Char) : ∀ s : List Char,
    startsWithStr p s = true → ∃ t, s = p ++ t := by
  induction p with
  | nil =>
    intro s _
    exact ⟨s, rfl⟩
  | cons a ps ih =>
    intro s h
    cases s with
    | nil => simp [startsWithStr] at h
    | cons c cs =>
      simp only [startsWithStr, Bool.and_eq_true, decide_eq_true_eq] at h
      obtain ⟨t, ht⟩ := ih cs h.2
      exact ⟨t, by rw [h.1, ht]; simp⟩

/-- A line with no `#` is untouched by comment stripping. -/
theorem stripComment_of_no_hash (input : List Char) (h : '#' ∉ input) :
    stripComment input = input := by
  unfold stripComment
  rw [List.takeWhile_eq_self_iff]
  intro x hx
  simp only [ne_eq, decide_eq_true_eq]
  intro e
  exact h (e ▸ hx)

/-- C10: a comment-free line beginning with the characters of a record
keyword (`Zone`/`Rule`/`Link`) whose first whitespace-separated token is
not exactly that keyword fails with the record-specific error
`NotParsedAs...Line`, never `InvalidLineType`. -/
theorem C10_line_new :
    (∀ input : List Char, '#' ∉ input → startsWithStr "Zone".toList input = true →
      (splitWs input).head? ≠ some "Zone".toList →
      Line.new input = .fail .NotParsedAsZoneLine)
    ∧ (∀ input : List Char, '#' ∉ input → startsWithStr "Rule".toList input = true →
      (splitWs input).head? ≠ some "Rule".toList →
      Line.new input = .fail .NotParsedAsRuleLine)
    ∧ (∀ input : List Char, '#' ∉ input → startsWithStr "Link".toList input = true →
      (splitWs input).head? ≠ some "Link".toList →
      Line.new input = .fail .NotParsedAsLinkLine) := by
  refine ⟨?_, ?_, ?_⟩
  · intro input hnoh hkw htok
    obtain ⟨t, rfl⟩ := startsWithStr_eq_append _ _ hkw
    have hs := splitWs_cons_nonws ('o' :: 'n' :: 'e' :: t) 'Z' (by decide)
    rw [show ("Zone".toList ++ t) = 'Z' :: ('o' :: 'n' :: 'e' :: t) from rfl] at hnoh hkw htok ⊢
    rw [hs] at htok
    simp only [List.head?_cons, ne_eq, Option.some_inj] at htok
    unfold Line.new
    dsimp only
    rw [stripComment_of_no_hash _ hnoh]
    rw [if_neg (by simp [isUniWs]), if_pos (by exact hkw)]
    unfold Zone.from_str
    rw [hs]
    dsimp only
    rw [if_neg htok]
    rfl
  · intro input hnoh hkw htok
    obtain ⟨t, rfl⟩ := startsWithStr_eq_append _ _ hkw
    have hs := splitWs_cons_nonws ('u' :: 'l' :: 'e' :: t) 'R' (by decide)
    rw [show ("Rule".toList ++ t) = 'R' :: ('u' :: 'l' :: 'e' :: t) from rfl] at hnoh hkw htok ⊢
    rw [hs] at htok
    simp only [List.head?_cons, ne_eq, Option.some_inj] at htok
    unfold Line.new
    dsimp only
    rw [stripComment_of_no_hash _ hnoh]
    rw [if_neg (by simp [isUniWs]), if_neg (by simp [startsWithStr]),
      if_neg (by simp [startsSpaceTab]), if_pos (by exact hkw)]
    unfold Rule.from_str
    rw [hs]
    simp only [ruleFold, startsHash, if_neg htok]
    rfl
  · intro input hnoh hkw htok
    obtain ⟨t, rfl⟩ := startsWithStr_eq_append _ _ hkw
    have hs := splitWs_cons_nonws ('i' :: 'n' :: 'k' :: t) 'L' (by decide)
    rw [show ("Link".toList ++ t) = 'L' :: ('i' :: 'n' :: 'k' :: t) from rfl] at hnoh hkw htok ⊢
    rw [hs] at htok
    simp only [List.head?_cons, ne_eq, Option.some_inj] at htok
    unfold Line.new
    dsimp only
    rw [stripComment_of_no_hash _ hnoh]
    rw [if_neg (by simp [isUniWs]), if_neg (by simp [startsWithStr]),
      if_neg (by simp [startsSpaceTab]), if_neg (by simp [startsWithStr]),
      if_pos (by exact hkw)]
    unfold Link.from_str
    rw [hs]
    dsimp only
    rw [if_neg htok]
    rfl

/-- C10 witness: the theorem applied to the line `Zonex x`. -/
theorem C10_witness : Line.new "Zonex x".toList = .fail .NotParsedAsZoneLine := by
  have h := C10_line_new.1 "Zonex x".toList (by decide) (by decide) (by decide)
  simpa using h

/-- C6: `ZoneInfo::from_iter` is the single body parser: `Zone::from_str`
runs it on the tokens after the `Zone` keyword and the name, and a
continuation line runs it on all its tokens; and for a successful parse
the number of tokens (3 + 0..4) determines the `time` field: `none`,
`UntilYear`, `UntilMonth`, `UntilDay`, `UntilTime` respectively.  The
token-count part is stated for ASCII tokens, on which the embedded
alphabetic test of the saving column coincides with the source's
`char::is_alphabetic`. -/
theorem C6_from_iter :
    (∀ (input name : List Char) (rest : List (List Char)),
      splitWs input = "Zone".toList :: name :: rest →
      Zone.from_str input = (ZoneInfo.from_iter rest).map (fun i => ⟨name, i⟩))
    ∧ (∀ input : List Char, '#' ∉ input → startsSpaceTab input = true →
      ¬input.all isUniWs = true →
      Line.new input = (ZoneInfo.from_iter (splitWs input)).map Line.Continuation)
    ∧ (∀ (toks : List (List Char)) (zi : ZoneInfo),
      (∀ t ∈ toks, startsHash t = false) →
      (∀ t ∈ toks, ∀ c ∈ t, c.toNat < 128) →
      ZoneInfo.from_iter toks = .ok zi →
      (toks.length = 3 → zi.time = none)
      ∧ (toks.length = 4 → ∃ y, zi.time = some (.UntilYear y))
      ∧ (toks.length = 5 → ∃ y m, zi.time = some (.UntilMonth y m))
      ∧ (toks.length = 6 → ∃ y m d, zi.time = some (.UntilDay y m d))
      ∧ (toks.length = 7 → ∃ y m d tt, zi.time = some (.UntilTime y m d tt))) := by
  refine ⟨?_, ?_, ?_⟩
  · intro input name rest hs
    unfold Zone.from_str
    rw [hs]
    dsimp only
    rw [if_pos rfl]
  · intro input hnoh hst hnb
    obtain ⟨c, cs, rfl⟩ : ∃ c cs, input = c :: cs := by
      cases input with
      | nil => simp [startsSpaceTab] at hst
      | cons c cs => exact ⟨c, cs, rfl⟩
    have hc : c = ' ' ∨ c = '\t' := by
      simpa [startsSpaceTab] using hst
    unfold Line.new
    dsimp only
    rw [stripComment_of_no_hash _ hnoh]
    rw [if_neg hnb]
    rw [if_neg (by rcases hc with rfl | rfl <;> simp [startsWithStr])]
    rw [if_pos hst]
  · intro toks zi hh _ hok
    unfold ZoneInfo.from_iter at hok
    refine ⟨?_, ?_, ?_, ?_, ?_⟩ <;> intro hlen
    · obtain ⟨a, b, c, rfl⟩ : ∃ a b c, toks = [a, b, c] := by
        rcases toks with _ | ⟨a, _ | ⟨b, _ | ⟨c, _ | ⟨d, r⟩⟩⟩⟩ <;>
          first
            | exact ⟨_, _, _, rfl⟩
            | (exfalso; simp only [List.length_cons, List.length_nil] at hlen; omega)
      have ha := hh a (by simp)
      have hb := hh b (by simp)
      simp only [zoneInfoFold, zoneInfoFinish, ha, hb, hh c (by simp),
        Bool.false_eq_true, if_false] at hok
      rcases h1 : TimeSpec.from_str a with o | e | _ <;> simp [h1, PRes.then] at hok
      rcases h2 : Saving.from_str b with sv | e | _ <;> simp [h2, PRes.then] at hok
      rw [← hok]
    · obtain ⟨a, b, c, d, rfl⟩ : ∃ a b c d, toks = [a, b, c, d] := by
        rcases toks with _ | ⟨a, _ | ⟨b, _ | ⟨c, _ | ⟨d, _ | ⟨e, r⟩⟩⟩⟩⟩ <;>
          first
            | exact ⟨_, _, _, _, rfl⟩
            | (exfalso; simp only [List.length_cons, List.length_nil] at hlen; omega)
      simp only [zoneInfoFold, zoneInfoFinish, hh a (by simp), hh b (by simp),
        hh c (by simp), hh d (by simp), Bool.false_eq_true, if_false] at hok
      rcases h1 : TimeSpec.from_str a with o | e | _ <;> simp [h1, PRes.then] at hok
      rcases h2 : Saving.from_str b with sv | e | _ <;> simp [h2, PRes.then] at hok
      rcases h3 : Year.from_str d with y | e | _ <;> simp [h3, PRes.then] at hok
      exact ⟨y, by rw [← hok]⟩
    · obtain ⟨a, b, c, d, e, rfl⟩ : ∃ a b c d e, toks = [a, b, c, d, e] := by
        rcases toks with _ | ⟨a, _ | ⟨b, _ | ⟨c, _ | ⟨d, _ | ⟨e, _ | ⟨f, r⟩⟩⟩⟩⟩⟩ <;>
          first
            | exact ⟨_, _, _, _, _, rfl⟩
            | (exfalso; simp only [List.length_cons, List.length_nil] at hlen; omega)
      simp only [zoneInfoFold, zoneInfoFinish, hh a (by simp), hh b (by simp),
        hh c (by simp), hh d (by simp), hh e (by simp), Bool.false_eq_true,
        if_false] at hok
      rcases h1 : TimeSpec.from_str a with o | er | _ <;> simp [h1, PRes.then] at hok
      rcases h2 : Saving.from_str b with sv | er | _ <;> simp [h2, PRes.then] at hok
      rcases h3 : Year.from_str d with y | er | _ <;> simp [h3, PRes.then] at hok
      rcases h4 : Month.from_str e with m | er | _ <;> simp [h4, PRes.then] at hok
      exact ⟨y, m, by rw [← hok]⟩
    · obtain ⟨a, b, c, d, e, f, rfl⟩ : ∃ a b c d e f, toks = [a, b, c, d, e, f] := by
        rcases toks with _ | ⟨a, _ | ⟨b, _ | ⟨c, _ | ⟨d, _ | ⟨e, _ | ⟨f, _ | ⟨g, r⟩⟩⟩⟩⟩⟩⟩ <;>
          first
            | exact ⟨_, _, _, _, _, _, rfl⟩
            | (exfalso; simp only [List.length_cons, List.length_nil] at hlen; omega)
      simp only [zoneInfoFold, zoneInfoFinish, hh a (by simp), hh b (by simp),
        hh c (by simp), hh d (by simp), hh e (by simp), hh f (by simp),
        Bool.false_eq_true, if_false] at hok
      rcases h1 : TimeSpec.from_str a with o | er | _ <;> simp [h1, PRes.then] at hok
      rcases h2 : Saving.from_str b with sv | er | _ <;> simp [h2, PRes.then] at hok
      rcases h3 : Year.from_str d with y | er | _ <;> simp [h3, PRes.then] at hok
      rcases h4 : Month.from_str e with m | er | _ <;> simp [h4, PRes.then] at hok
      rcases h5 : DaySpec.from_str f with dd | er | _ <;> simp [h5, PRes.then] at hok
      exact ⟨y, m, dd, by rw [← hok]⟩
    · obtain ⟨a, b, c, d, e, f, g, rfl⟩ : ∃ a b c d e f g,
          toks = [a, b, c, d, e, f, g] := by
        rcases toks with
          _ | ⟨a, _ | ⟨b, _ | ⟨c, _ | ⟨d, _ | ⟨e, _ | ⟨f, _ | ⟨g, _ | ⟨i, r⟩⟩⟩⟩⟩⟩⟩⟩ <;>
          first
            | exact ⟨_, _, _, _, _, _, _, rfl⟩
            | (exfalso; simp only [List.length_cons, List.length_nil] at hlen; omega)
      simp only [zoneInfoFold, zoneInfoFinish, hh a (by simp), hh b (by simp),
        hh c (by simp), hh d (by simp), hh e (by simp), hh f (by simp), hh g (by simp),
        Bool.false_eq_true, if_false] at hok
      rcases h1 : TimeSpec.from_str a with o | er | _ <;> simp [h1, PRes.then] at hok
      rcases h2 : Saving.from_str b with sv | er | _ <;> simp [h2, PRes.then] at hok
      rcases h3 : Year.from_str d with y | er | _ <;> simp [h3, PRes.then] at hok
      rcases h4 : Month.from_str e with m | er | _ <;> simp [h4, PRes.then] at hok
      rcases h5 : DaySpec.from_str f with dd | er | _ <;> simp [h5, PRes.then] at hok
      rcases h6 : TimeSpecAndType.from_str g with tt | er | _ <;>
        simp [h6, PRes.then] at hok
      exact ⟨y, m, dd, tt, by rw [← hok]⟩

/-- C6 witness: the reuse part applied to an Australia/Adelaide zone line
and the token-count part applied to its four body tokens. -/
theorem C6_witness :
    Zone.from_str "Zone Australia/Adelaide 9:30 Aus AC%sT 1971".toList
      = (ZoneInfo.from_iter ["9:30".toList, "Aus".toList, "AC%sT".toList,
          "1971".toList]).map (fun i => ⟨"Australia/Adelaide".toList, i⟩)
    ∧ (∃ y, (⟨.HoursMinutes 9 30, .Multiple "Aus".toList, "AC%sT".toList,
        some (.UntilYear (.Number 1971))⟩ : ZoneInfo).time = some (.UntilYear y)) := by
  constructor
  · exact C6_from_iter.1 "Zone Australia/Adelaide 9:30 Aus AC%sT 1971".toList
      "Australia/Adelaide".toList
      ["9:30".toList, "Aus".toList, "AC%sT".toList, "1971".toList] (by decide)
  · exact (C6_from_iter.2.2
      ["9:30".toList, "Aus".toList, "AC%sT".toList, "1971".toList]
      ⟨.HoursMinutes 9 30, .Multiple "Aus".toList, "AC%sT".toList,
        some (.UntilYear (.Number 1971))⟩ (by decide) (by decide) (by decide)).2.1
      (by decide)

/-- C1 counterexample: at year -1 (a negative proleptic year) the Zeller
sum is negative, Rust's truncating `%` yields a negative remainder, and
`Weekday::calculate(-1, January, 1)` hits the `panic!` arm instead of
returning any weekday — so the claim fails for negative years. -/
theorem C1_counterexample : Weekday.calculate (-1) .January 1 = none := by decide

/-- C1 (amended): for every year between 1 and 2^62, month, and valid day
of that month, `Weekday::calculate` returns the ISO weekday of the
proleptic-Gregorian date; in particular the 1970-01-01 = Thursday and
2016-02-29 = Monday anchors hold.  (For years ≤ 0 the truncating-division
Zeller sum can go negative and the function panics, as the counterexample
shows; for years near `i64::MAX` the `i64` Zeller sum overflows, another
panic, so the claim also does not extend to the top of the `i64` range.) -/
theorem C1_amended :
    (∀ (y : Int) (m : Month) (d : Int), 1 ≤ y → y ≤ 4611686018427387904 → 1 ≤ d →
      d ≤ m.length (is_leap y) →
      Weekday.calculate y m d = some (isoWeekday y m d))
    ∧ Weekday.calculate 1970 .January 1 = some .Thursday
    ∧ Weekday.calculate 2016 .February 29 = some .Monday := by
  refine ⟨?_, by decide, by decide⟩
  intro y m d hy hy2 hd hdm
  have hd2 : d ≤ 31 := by
    rcases hl : is_leap y with _ | _ <;> rw [hl] at hdm <;> cases m <;>
      simp [Month.length] at hdm <;> omega
  exact calculate_eq_iso y m d hy hy2 hd hd2

/-- C1 witness: the amended theorem applied at 2000-03-15. -/
theorem C1_witness :
    (1 : Int) ≤ 2000 ∧ (2000 : Int) ≤ 4611686018427387904 ∧ (1 : Int) ≤ 15 ∧
      (15 : Int) ≤ Month.length .March (is_leap 2000) ∧
      Weekday.calculate 2000 .March 15 = some (isoWeekday 2000 .March 15) :=
  ⟨by decide, by norm_num, by decide, by decide,
    C1_amended.1 2000 .March 15 (by decide) (by norm_num) (by decide) (by decide)⟩

/-- C5: `is_leap` is exactly the Gregorian rule — divisible by 4 and
(not divisible by 100 or divisible by 400) — for every integer year, and
the four sample values hold. -/
theorem C5_is_leap :
    (∀ y : Int, is_leap y = true ↔ ((4 : Int) ∣ y ∧ (¬(100 : Int) ∣ y ∨ (400 : Int) ∣ y)))
    ∧ is_leap 1900 = false ∧ is_leap 2000 = true ∧ is_leap 1996 = true ∧
      is_leap 1997 = false :=
  ⟨is_leap_gregorian, by decide, by decide, by decide, by decide⟩

/-- C5 witness: the rule applied at year 2024. -/
theorem C5_witness : is_leap 2024 = true :=
  (C5_is_leap.1 2024).mpr (by decide)

/-- C7: `DaySpec::to_concrete_day` resolves the three symbolic rules of the
claim, including the forward and backward month rollovers. -/
theorem C7_to_concrete_day :
    DaySpec.to_concrete_day (.FirstOnOrAfter .Sunday 25) 1932 .April = some (.May, 1)
    ∧ DaySpec.to_concrete_day (.LastOnOrBefore .Friday 1) 2012 .April = some (.March, 30)
    ∧ DaySpec.to_concrete_day (.Last .Monday) 2016 .February = some (.February, 29) :=
  ⟨by decide, by decide, by decide⟩

set_option maxRecDepth 4000 in
/-- C3: `ChangeTime::to_timestamp` computes the signed Unix timestamp of
the described civil instant minus the reference-frame adjustment (UTC 0,
Standard `utc_offset`, Wall `utc_offset + dst_offset`; the day-less forms
use the Wall adjustment), and the three epoch anchor values hold.  The
general parts are stated for years within ±10^6, offsets within ±10^9,
and day and time components inside the `i8` range: on that domain every
checked `i64` operation of the computation stays in range (outside it the
year-seconds sum can overflow `i64`, a panic), and the
`UntilDay`/`UntilTime` parts further assume a day-spec resolution that
returns (rather than panics). -/
theorem C3_to_timestamp :
    (∀ y utc dst : Int, -1000000 ≤ y → y ≤ 1000000 →
      -1000000000 ≤ utc → utc ≤ 1000000000 → -1000000000 ≤ dst → dst ≤ 1000000000 →
      ChangeTime.to_timestamp (.UntilYear (.Number y)) utc dst
        = some (specCivilTimestamp y .January 1 0 0 0 - (utc + dst)))
    ∧ (∀ (y utc dst : Int) (m : Month), -1000000 ≤ y → y ≤ 1000000 →
      -1000000000 ≤ utc → utc ≤ 1000000000 → -1000000000 ≤ dst → dst ≤ 1000000000 →
      ChangeTime.to_timestamp (.UntilMonth (.Number y) m) utc dst
        = some (specCivilTimestamp y m 1 0 0 0 - (utc + dst)))
    ∧ (∀ (y utc dst : Int) (m m2 : Month) (ds : DaySpec) (d : Int),
      -1000000 ≤ y → y ≤ 1000000 →
      -1000000000 ≤ utc → utc ≤ 1000000000 → -1000000000 ≤ dst → dst ≤ 1000000000 →
      -128 ≤ d → d ≤ 127 →
      ds.to_concrete_day y m = some (m2, d) →
      ChangeTime.to_timestamp (.UntilDay (.Number y) m ds) utc dst
        = some (specCivilTimestamp y m2 d 0 0 0 - (utc + dst)))
    ∧ (∀ (y utc dst : Int) (m m2 : Month) (ds : DaySpec) (d : Int) (t : TimeSpecAndType),
      -1000000 ≤ y → y ≤ 1000000 →
      -1000000000 ≤ utc → utc ≤ 1000000000 → -1000000000 ≤ dst → dst ≤ 1000000000 →
      -128 ≤ d → d ≤ 127 →
      -128 ≤ (timeParts t.fst).1 → (timeParts t.fst).1 ≤ 127 →
      -128 ≤ (timeParts t.fst).2.1 → (timeParts t.fst).2.1 ≤ 127 →
      -128 ≤ (timeParts t.fst).2.2 → (timeParts t.fst).2.2 ≤ 127 →
      ds.to_concrete_day y m = some (m2, d) →
      ChangeTime.to_timestamp (.UntilTime (.Number y) m ds t) utc dst
        = some (specCivilTimestamp y m2 d (timeParts t.fst).1 (timeParts t.fst).2.1
            (timeParts t.fst).2.2 - frameAdjustment t.snd utc dst))
    ∧ ChangeTime.to_timestamp (.UntilYear (.Number 1970)) 0 0 = some 0
    ∧ ChangeTime.to_timestamp (.UntilYear (.Number 2016)) 0 0 = some 1451606400
    ∧ ChangeTime.to_timestamp (.UntilYear (.Number 1900)) 0 0 = some (-2208988800) := by
  refine ⟨?_, ?_, ?_, ?_, by decide, by decide, by decide⟩
  · intro y utc dst h1 h2 h3 h4 h5 h6
    exact untilYear_eq y utc dst h1 h2 h3 h4 h5 h6
  · intro y utc dst m h1 h2 h3 h4 h5 h6
    exact untilMonth_eq y utc dst m h1 h2 h3 h4 h5 h6
  · intro y utc dst m m2 ds d h1 h2 h3 h4 h5 h6 h7 h8 hcd
    exact untilDay_eq y utc dst m m2 ds d h1 h2 h3 h4 h5 h6 h7 h8 hcd
  · intro y utc dst m m2 ds d t h1 h2 h3 h4 h5 h6 h7 h8 h9 h10 h11 h12 h13 h14 hcd
    exact untilTime_eq y utc dst m m2 ds d t h1 h2 h3 h4 h5 h6 h7 h8 h9 h10 h11 h12
      h13 h14 hcd

/-- C3 witness: the `UntilDay` part applied at 2000-03-01 with zero
offsets. -/
theorem C3_witness :
    DaySpec.to_concrete_day (.Ordinal 1) 2000 .March = some (.March, 1) ∧
      ChangeTime.to_timestamp (.UntilDay (.Number 2000) .March (.Ordinal 1)) 0 0
        = some (specCivilTimestamp 2000 .March 1 0 0 0 - (0 + 0)) :=
  ⟨by decide, C3_to_timestamp.2.2.1 2000 0 0 .March .March (.Ordinal 1) 1 (by norm_num)
    (by norm_num) (by norm_num) (by norm_num) (by norm_num) (by norm_num) (by norm_num)
    (by norm_num) (by decide)⟩
